import Mathlib

/-!
Verification development for the IO Crosscheck matching/classification
engine.  The definitions below are a shallow embedding of the Python
modules `models.py`, `normalizers.py`, `classifiers.py`, `strategies.py`
and `l5x_to_crosscheck.py` of the repository.  Regular expressions of the
source are embedded as explicit character scanners; Python dictionaries
become association lists; Python sets become lists used only through
membership; object references (for the enrichment pass, which mutates
PLCTag objects in place) become indices into an explicit tag heap.
-/

set_option maxRecDepth 4000

/-- Record kind of a PLC tag export row (`models.RecordType`). -/
inductive RecordType where
  | tag
  | comment
  | aliasRec
  | rcomment
deriving DecidableEq

/-- Semantic category of a PLC tag (`models.TagCategory`). -/
inductive TagCategory where
  | ioModule
  | rackIoUnit
  | enetDevice
  | aliasCat
  | program
  | bitLevelComment
  | unknown
deriving DecidableEq

/-- Address family of an IO-list row (`models.AddressFormat`). -/
inductive AddressFormat where
  | plc5
  | clx
  | unknown
deriving DecidableEq

/-- Outcome classification (`models.Classification`).

The source enum in `models.py` declares exactly five members: BOTH,
IO_LIST_ONLY, PLC_ONLY, CONFLICT and SPARE.  The constructor `rackOnly`
below is the value named `Classification.RACK_ONLY` by
`l5x_to_crosscheck.py`, `reports.py` and the test suite; it is absent
from `models.py`, so in the source every attribute access
`Classification.RACK_ONLY` raises an AttributeError.  The enrichment
embedding below models that access as an `Except.error`; the modelled
rack-existence strategy (missing from `strategies.py`, see
`rackLevelTagExistence`) uses the constructor directly, following the
spec. -/
inductive Classification where
  | both
  | ioListOnly
  | plcOnly
  | conflict
  | spare
  | rackOnly
deriving DecidableEq

/-- Confidence level of a match (`models.Confidence`). -/
inductive Confidence where
  | exact
  | high
  | partialConf
  | supporting
deriving DecidableEq

/-- One record from the PLC tag export (`models.PLCTag`). -/
structure PLCTag where
  record_type : RecordType
  name : String
  base_name : String := ""
  description : String := ""
  datatype : String := ""
  scope : String := ""
  specifier : String := ""
  suffixes : List String := []
  category : TagCategory := TagCategory.unknown
  source_line : Nat := 0
deriving DecidableEq

/-- One row of the facility IO list (`models.IODevice`). -/
structure IODevice where
  panel : String := ""
  rack : String := ""
  group : String := ""
  slot : String := ""
  channel : String := ""
  plc_address : String := ""
  io_tag : String := ""
  device_tag : String := ""
  module_type : String := ""
  module : String := ""
  range_low : String := ""
  range_high : String := ""
  units : String := ""
  address_format : AddressFormat := AddressFormat.unknown
  source_row : Nat := 0
deriving DecidableEq

/-- One crosscheck conclusion (`models.MatchResult`), value form as
produced by the matching cascade. -/
structure MatchResult where
  io_device : Option IODevice := none
  plc_tag : Option PLCTag := none
  strategy_id : Nat := 0
  confidence : Confidence := Confidence.exact
  classification : Classification := Classification.ioListOnly
  conflict_flag : Bool := false
  audit_trail : List String := []
  reviewer : String := ""
  review_timestamp : String := ""
  sources : List String := []
deriving DecidableEq

/-! ### Character-level helpers for the embedded regular expressions -/

/-- Case-insensitive match of a literal character list at the head of the
input; returns the remaining input on success. -/
def matchLit : List Char → List Char → Option (List Char)
  | [], cs => some cs
  | _, [] => none
  | l :: ls, c :: cs => if c.toLower = l then matchLit ls cs else none

/-- Length of the leading digit run together with the rest of the input. -/
def digitsSpan (cs : List Char) : Nat × List Char :=
  let ds := cs.takeWhile Char.isDigit
  (ds.length, cs.drop ds.length)

/-- True for the characters the class `[IO]` accepts case-insensitively. -/
def isIOChar (c : Char) : Bool :=
  c.toLower = 'i' || c.toLower = 'o'

/-- True for the characters the class `[IOCS]` accepts case-insensitively. -/
def isIOCSChar (c : Char) : Bool :=
  c.toLower = 'i' || c.toLower = 'o' || c.toLower = 'c' || c.toLower = 's'

/-- Python str.lower on the ASCII data this program handles, written over
the character list so that proofs can evaluate it. -/
def toLowerStr (s : String) : String :=
  String.mk (s.data.map Char.toLower)

/-- The whitespace characters Python str.strip removes (ASCII range). -/
def isSpaceChar (c : Char) : Bool :=
  c = ' ' || c = '\t' || c = '\n' || c = '\r' || c.toNat = 11 || c.toNat = 12

/-- Python str.strip, written over the character list. -/
def trimStr (s : String) : String :=
  String.mk (((s.data.dropWhile isSpaceChar).reverse.dropWhile isSpaceChar).reverse)

/-- Python str.endswith, written over the character list. -/
def endsWithStr (s tail : String) : Bool :=
  List.isPrefixOf tail.data.reverse s.data.reverse

/-- Python str.join over a separator, written by structural recursion. -/
def intercalateStr (sep : String) : List String → String
  | [] => ""
  | [s] => s
  | s :: rest => s ++ sep ++ intercalateStr sep rest

/-- The text before the first dot: Python split on a dot, first element. -/
def headBeforeDot (s : String) : String :=
  String.mk (s.data.takeWhile (fun c => c != '.'))

/-- Embeds `_CLX_PATTERN`: anchored, case-insensitive
`Rack digits : ( [IO] | digits : [IO] )`, arbitrary trailing text. -/
def clxPatternMatch (s : String) : Bool :=
  match matchLit ['r', 'a', 'c', 'k'] s.toList with
  | none => false
  | some cs =>
    let (n, cs1) := digitsSpan cs
    if n = 0 then false else
    match cs1 with
    | ':' :: cs2 =>
      (match cs2 with
       | c :: _ =>
         if isIOChar c then true else
         let (m, cs3) := digitsSpan cs2
         if m = 0 then false else
         match cs3 with
         | ':' :: d :: _ => isIOChar d
         | _ => false
       | [] => false)
    | _ => false

/-- Embeds `_PLC5_PATTERN`: anchored, case-insensitive
`Rack digits _Group digits _Slot digits _IO.`, arbitrary trailing text. -/
def plc5PatternMatch (s : String) : Bool :=
  match matchLit ['r', 'a', 'c', 'k'] s.toList with
  | none => false
  | some cs =>
    let (n, cs1) := digitsSpan cs
    if n = 0 then false else
    match matchLit ['_', 'g', 'r', 'o', 'u', 'p'] cs1 with
    | none => false
    | some cs2 =>
      let (m, cs3) := digitsSpan cs2
      if m = 0 then false else
      match matchLit ['_', 's', 'l', 'o', 't'] cs3 with
      | none => false
      | some cs4 =>
        let (k, cs5) := digitsSpan cs4
        if k = 0 then false else
        (matchLit ['_', 'i', 'o', '.'] cs5).isSome

/-- Embeds `_CLX_RACK_BASE_PATTERN` `(Rack digits : [IO])`: on success
returns the length of the captured group. -/
def rackBaseLen (s : String) : Option Nat :=
  match matchLit ['r', 'a', 'c', 'k'] s.toList with
  | none => none
  | some cs =>
    let (n, cs1) := digitsSpan cs
    if n = 0 then none else
    match cs1 with
    | ':' :: c :: _ => if isIOChar c then some (4 + n + 2) else none
    | _ => none

/-- Embeds `_CLX_SLOT_RACK_BASE_PATTERN` `(Rack digits) : digits : [IO]`:
on success returns the length of the captured group (just `Rack digits`). -/
def slotRackBaseLen (s : String) : Option Nat :=
  match matchLit ['r', 'a', 'c', 'k'] s.toList with
  | none => none
  | some cs =>
    let (n, cs1) := digitsSpan cs
    if n = 0 then none else
    match cs1 with
    | ':' :: cs2 =>
      let (m, cs3) := digitsSpan cs2
      if m = 0 then none else
      match cs3 with
      | ':' :: c :: _ => if isIOChar c then some (4 + n) else none
      | _ => none
    | _ => none

/-! ### `normalizers.py` -/

/-- `normalizers.KNOWN_SUFFIXES`, ordered longest-first as in the source. -/
def KNOWN_SUFFIXES : List String :=
  ["_FailedToClose", "_FailedToOpen", "_OnTimer", "_OffTimer",
   "_Monitor", "_Failed", "_Pulse", "_Input", "_Out", "_Old",
   "_Pos", "_EV", "_MC", "_AUX", "_ZSO", "_ZSC", "_In"]

/-- `normalizers.strip_suffixes` with an explicit suffix list. -/
def strip_suffixes_with (tag : String) (suffixes : List String) : String :=
  if tag = "" then "" else
  match suffixes.find? (fun suffix => endsWithStr (toLowerStr tag) (toLowerStr suffix)) with
  | some suffix => tag.take (tag.length - suffix.length)
  | none => tag

/-- `normalizers.strip_suffixes` at its default suffix list. -/
def strip_suffixes (tag : String) : String :=
  strip_suffixes_with tag KNOWN_SUFFIXES

/-- `normalizers.normalize_tag`: trim, strip the first matching known
suffix, case-fold. -/
def normalize_tag (tag : String) : String :=
  let t := trimStr tag
  if t = "" then "" else toLowerStr (strip_suffixes t)

/-- `normalizers.normalize_address`: trim and case-fold. -/
def normalize_address (address : String) : String :=
  let a := trimStr address
  if a = "" then "" else toLowerStr a

/-- `normalizers.detect_address_format`: returns the strings CLX, PLC5 or
Unknown, exactly as the source does. -/
def detect_address_format (address : String) : String :=
  let a := trimStr address
  if a = "" then "Unknown"
  else if clxPatternMatch a then "CLX"
  else if plc5PatternMatch a then "PLC5"
  else "Unknown"

/-- `normalizers.extract_rack_base`: leading rack token of a CLX address,
in the original casing of the (trimmed) input. -/
def extract_rack_base (address : String) : Option String :=
  if address = "" then none else
  let addr := trimStr address
  match rackBaseLen addr with
  | some n => some (addr.take n)
  | none =>
    match slotRackBaseLen addr with
    | some n => some (addr.take n)
    | none => none

/-- Lazy group of `_ENET_PATTERN` after the device prefix: shortest
non-empty prefix of the input such that the remainder is empty or starts
with a colon followed by an `[IOCS]` character. -/
def enetGroupAux : List Char → List Char → Option (List Char)
  | [], acc => if acc = [] then none else some acc.reverse
  | c :: rest, acc =>
    if c = ':' && !acc.isEmpty &&
        (match rest with | d :: _ => isIOCSChar d | [] => false) then
      some acc.reverse
    else enetGroupAux rest (c :: acc)

/-- The alternation `(?:E300|VFD|IPDev|IPDEV)_` of `_ENET_PATTERN`:
returns the input after the prefix when one matches. -/
def enetAfterDevice (cs : List Char) : Option (List Char) :=
  match matchLit ['e', '3', '0', '0', '_'] cs with
  | some rest => some rest
  | none =>
    match matchLit ['v', 'f', 'd', '_'] cs with
    | some rest => some rest
    | none => matchLit ['i', 'p', 'd', 'e', 'v', '_'] cs

/-- `normalizers.extract_enet_device`: embedded device identifier of an
EtherNet/IP module tag name, original casing. -/
def extract_enet_device (tag_name : String) : Option String :=
  if tag_name = "" then none else
  match enetAfterDevice (trimStr tag_name).data with
  | none => none
  | some rest =>
    match enetGroupAux rest [] with
    | none => none
    | some group => some (String.mk group)

/-! ### `classifiers.py` (the predicates the engine uses) -/

/-- `classifiers.is_spare`: true iff the trimmed, case-folded tag text is
exactly the word spare. -/
def is_spare (io_tag : String) : Bool :=
  toLowerStr (trimStr io_tag) = "spare"

/-- `classifiers.is_enet_device_tag`: `_ENET_PREFIX_PATTERN` on the
trimmed tag name. -/
def is_enet_device_tag (t : PLCTag) : Bool :=
  (enetAfterDevice (trimStr t.name).data).isSome

/-! ### `strategies.py` — the matching strategies

Each Python strategy class exposes one `match` method; `match` is a Lean
keyword, so each method is embedded as a top-level function named after
its class. -/

/-- The normalized device-name side of the strategy-1 comparison:
`normalize_tag(io_device.io_tag) if io_device.io_tag else ""`. -/
def clxIoBase (io_device : IODevice) : String :=
  if io_device.io_tag ≠ "" then normalize_tag io_device.io_tag else ""

/-- As `clxIoBase`, for the device tag. -/
def clxIoDevBase (io_device : IODevice) : String :=
  if io_device.device_tag ≠ "" then normalize_tag io_device.device_tag else ""

/-- The trimmed, case-folded description of a Comment record:
`tag.description.strip().lower() if tag.description else ""`. -/
def clxPlcDesc (t : PLCTag) : String :=
  if t.description ≠ "" then toLowerStr (trimStr t.description) else ""

/-- The `name_matches` condition of `DirectCLXAddressMatch.match`. -/
def clxNameMatches (io_device : IODevice) (t : PLCTag) : Prop :=
  (clxPlcDesc t ≠ "" ∧
    (clxPlcDesc t = clxIoBase io_device ∨ clxPlcDesc t = clxIoDevBase io_device))
  ∨ clxPlcDesc t = "" ∨ clxIoBase io_device = ""

instance (io_device : IODevice) (t : PLCTag) : Decidable (clxNameMatches io_device t) := by
  unfold clxNameMatches; infer_instance

/-- The result strategy 1 commits to once a Comment matches by address:
Both on an agreeing (or absent) description, Conflict otherwise. -/
def directCLXBranch (io_device : IODevice) (t : PLCTag) : MatchResult :=
  if clxNameMatches io_device t then
    { io_device := some io_device
      plc_tag := some t
      strategy_id := 1
      confidence := Confidence.exact
      classification := Classification.both
      audit_trail :=
        ["Strategy 1: Direct CLX Address Match",
         "IO address " ++ io_device.plc_address ++
           " matches PLC COMMENT specifier " ++ t.specifier ++ " (case-insensitive)",
         "PLC description: " ++ t.description ++ ", IO tag: " ++
           io_device.io_tag ++ ", Device tag: " ++ io_device.device_tag] }
  else
    { io_device := some io_device
      plc_tag := some t
      strategy_id := 1
      confidence := Confidence.exact
      classification := Classification.conflict
      conflict_flag := true
      audit_trail :=
        ["Strategy 1: Direct CLX Address Match - CONFLICT",
         "IO address " ++ io_device.plc_address ++
           " matches PLC COMMENT specifier " ++ t.specifier,
         "BUT device names differ: IO=" ++ io_device.device_tag ++
           " vs PLC=" ++ t.description] }

/-- Scan loop of `DirectCLXAddressMatch.match` over the tag list. -/
def directCLXScan (io_device : IODevice) (norm_addr : String) :
    List PLCTag → Option MatchResult
  | [] => none
  | t :: rest =>
    if t.record_type ≠ RecordType.comment then directCLXScan io_device norm_addr rest
    else if t.specifier = "" then directCLXScan io_device norm_addr rest
    else if normalize_address t.specifier = norm_addr then
      some (directCLXBranch io_device t)
    else directCLXScan io_device norm_addr rest

/-- `DirectCLXAddressMatch.match` (strategy id 1). -/
def directCLXAddressMatch (io_device : IODevice) (plc_tags : List PLCTag) :
    Option MatchResult :=
  if io_device.address_format ≠ AddressFormat.clx then none
  else if io_device.plc_address = "" then none
  else directCLXScan io_device (normalize_address io_device.plc_address) plc_tags

/-- Scan loop of `PLC5RackAddressMatch.match` over the tag list. -/
def plc5Scan (io_device : IODevice) (addr_base : String) :
    List PLCTag → Option MatchResult
  | [] => none
  | t :: rest =>
    if t.record_type ≠ RecordType.tag then plc5Scan io_device addr_base rest
    else if toLowerStr (trimStr t.name) = addr_base then
      some { io_device := some io_device
             plc_tag := some t
             strategy_id := 2
             confidence := Confidence.exact
             classification := Classification.both
             audit_trail :=
               ["Strategy 2: PLC5 Rack Address Match",
                "IO address base " ++ addr_base ++ " matches PLC TAG name " ++
                  t.name ++ " (case-insensitive)"] }
    else plc5Scan io_device addr_base rest

/-- `PLC5RackAddressMatch.match` (strategy id 2): matches the address
text before the first dot against Tag record names. -/
def plc5RackAddressMatch (io_device : IODevice) (plc_tags : List PLCTag) :
    Option MatchResult :=
  if io_device.address_format ≠ AddressFormat.plc5 then none
  else if io_device.plc_address = "" then none
  else
    let addr := trimStr io_device.plc_address
    let addr_base :=
      match addr.toList.findIdx? (fun c => c = '.') with
      | some i => if i > 0 then toLowerStr (addr.take i) else toLowerStr addr
      | none => toLowerStr addr
    plc5Scan io_device addr_base plc_tags

/-- Scan loop of the modelled rack-level strategy over the tag list. -/
def rackLevelScan (io_device : IODevice) (base : String) :
    List PLCTag → Option MatchResult
  | [] => none
  | t :: rest =>
    if t.record_type ≠ RecordType.tag then rackLevelScan io_device base rest
    else if toLowerStr (trimStr t.name) = toLowerStr base then
      some { io_device := some io_device
             plc_tag := some t
             strategy_id := 3
             confidence := Confidence.partialConf
             classification := Classification.rackOnly
             audit_trail :=
               ["Strategy 3: Rack-Level TAG Existence",
                "Rack base " ++ base ++ " of IO address " ++
                  io_device.plc_address ++ " matches PLC TAG name " ++
                  t.name ++ " (case-insensitive)",
                "Parent rack exists but there is no bit-level evidence for this point"] }
    else rackLevelScan io_device base rest

/-- Modelled from the spec: strategy 3, Rack-Level Existence
(`RackLevelTagExistence`).  The class is absent from
`src/io_crosscheck/strategies.py` even though `tests/test_strategies.py`
imports it and asserts its behaviour; following the spec, it applies only
when the address family is Modern (CLX), derives the rack base from the
device address via `extract_rack_base`, scans PLCTag Tag records for a
name equal to that base case-insensitively, and on a hit yields a
RackOnly result with Partial confidence and strategy id 3. -/
def rackLevelTagExistence (io_device : IODevice) (plc_tags : List PLCTag) :
    Option MatchResult :=
  if io_device.address_format ≠ AddressFormat.clx then none
  else
    match extract_rack_base io_device.plc_address with
    | none => none
    | some base => rackLevelScan io_device base plc_tags

/-- Scan loop of `ENetModuleTagExtraction.match` over the tag list. -/
def enetScan (io_device : IODevice) (io_dev_lower io_io_lower : String) :
    List PLCTag → Option MatchResult
  | [] => none
  | t :: rest =>
    if t.record_type ≠ RecordType.tag then enetScan io_device io_dev_lower io_io_lower rest
    else
      match extract_enet_device t.name with
      | none => enetScan io_device io_dev_lower io_io_lower rest
      | some device_id =>
        if toLowerStr device_id = io_dev_lower ∨ toLowerStr device_id = io_io_lower then
          some { io_device := some io_device
                 plc_tag := some t
                 strategy_id := 4
                 confidence := Confidence.exact
                 classification := Classification.both
                 audit_trail :=
                   ["Strategy 4: ENet Module Tag Extraction",
                    "Extracted device " ++ device_id ++ " from PLC TAG " ++ t.name,
                    "Matches IO device tag " ++ io_device.device_tag ++
                      " (case-insensitive)"] }
        else enetScan io_device io_dev_lower io_io_lower rest

/-- `ENetModuleTagExtraction.match` (strategy id 4). -/
def enetModuleTagExtraction (io_device : IODevice) (plc_tags : List PLCTag) :
    Option MatchResult :=
  let io_dev_tag := if io_device.device_tag ≠ "" then trimStr io_device.device_tag else ""
  let io_io_tag := if io_device.io_tag ≠ "" then trimStr io_device.io_tag else ""
  if io_dev_tag = "" ∧ io_io_tag = "" then none
  else enetScan io_device (toLowerStr io_dev_tag) (toLowerStr io_io_tag) plc_tags

/-- The comparison names the normalization strategy builds for one PLC
tag: its normalized base name (when the base name is non-empty) and its
trimmed, case-folded description (when non-empty). -/
def plcNamesOf (t : PLCTag) : List String :=
  (if t.base_name ≠ "" then [normalize_tag t.base_name] else []) ++
  (if t.description ≠ "" then [toLowerStr (trimStr t.description)] else [])

/-- Scan loop of `TagNameNormalizationMatch.match`: first tag owning a
non-empty comparison name that is a member of the candidate set. -/
def tagNameScan (io_device : IODevice) (candidates : List String) :
    List PLCTag → Option MatchResult
  | [] => none
  | t :: rest =>
    match (plcNamesOf t).find? (fun p => p ≠ "" && candidates.contains p) with
    | some plc_name =>
      some { io_device := some io_device
             plc_tag := some t
             strategy_id := 5
             confidence := Confidence.high
             classification := Classification.both
             audit_trail :=
               ["Strategy 5: Tag Name Normalization Match",
                "Normalized IO tag(s) matched PLC name " ++ plc_name,
                "IO tag: " ++ io_device.io_tag ++ ", Device tag: " ++
                  io_device.device_tag,
                "PLC source: " ++ t.name ++ " (description=" ++ t.description ++
                  ", base_name=" ++ t.base_name ++ ")"] }
    | none => tagNameScan io_device candidates rest

/-- `io_tag_norm` of strategy 5:
`normalize_tag(io_device.io_tag) if io_device.io_tag else ""`. -/
def ioTagNorm (io_device : IODevice) : String :=
  if io_device.io_tag ≠ "" then normalize_tag io_device.io_tag else ""

/-- `dev_tag_norm` of strategy 5. -/
def devTagNorm (io_device : IODevice) : String :=
  if io_device.device_tag ≠ "" then normalize_tag io_device.device_tag else ""

/-- The candidate set of strategy 5: the non-empty normalized IO names
(set membership is all that is ever used of it). -/
def tnCandidates (io_device : IODevice) : List String :=
  (if ioTagNorm io_device ≠ "" then [ioTagNorm io_device] else []) ++
  (if devTagNorm io_device ≠ "" then [devTagNorm io_device] else [])

/-- `TagNameNormalizationMatch.match` (strategy id 5): exact membership
of a tag comparison name in the set of normalized IO candidates. -/
def tagNameNormalizationMatch (io_device : IODevice) (plc_tags : List PLCTag) :
    Option MatchResult :=
  if ioTagNorm io_device = "" ∧ devTagNorm io_device = "" then none
  else tagNameScan io_device (tnCandidates io_device) plc_tags

/-! ### `MatchingEngine` -/

/-- The strategy list of `MatchingEngine.__init__` as found in
`strategies.py`: strategies 1, 2, 4 and 5 (the rack-level strategy 3 is
absent from the source file). -/
def engineStrategies : List (IODevice → List PLCTag → Option MatchResult) :=
  [directCLXAddressMatch, plc5RackAddressMatch,
   enetModuleTagExtraction, tagNameNormalizationMatch]

/-- Modelled from the spec: the five-step cascade order, with the
rack-level strategy registered as the third step (its registration in
`MatchingEngine.__init__` is missing from the source together with the
strategy class itself). -/
def specCascadeStrategies : List (IODevice → List PLCTag → Option MatchResult) :=
  [directCLXAddressMatch, plc5RackAddressMatch, rackLevelTagExistence,
   enetModuleTagExtraction, tagNameNormalizationMatch]

/-- The Spare-classified result the engine emits before any strategy runs. -/
def mkSpareResult (io_dev : IODevice) : MatchResult :=
  { io_device := some io_dev
    classification := Classification.spare
    audit_trail :=
      ["IO tag " ++ io_dev.io_tag ++ " identified as spare - excluded from matching"] }

/-- The IO-List-Only result emitted when no strategy matched. -/
def mkIoListOnlyResult (io_dev : IODevice) : MatchResult :=
  { io_device := some io_dev
    classification := Classification.ioListOnly
    audit_trail :=
      ["No matching strategy found for IO device",
       "IO tag: " ++ io_dev.io_tag ++ ", Device tag: " ++ io_dev.device_tag ++
         ", Address: " ++ io_dev.plc_address,
       "Strategies evaluated: Direct CLX Address Match, PLC5 Rack Address Match, ENet Module Tag Extraction, Tag Name Normalization Match"] }

/-- Phase-1 body of `MatchingEngine.run` for one device: the spare
short-circuit, then the strategy cascade, then the IO-List-Only fallback. -/
def classifyDevice (plc_tags : List PLCTag) (io_dev : IODevice) : MatchResult :=
  if is_spare io_dev.io_tag then mkSpareResult io_dev
  else
    match engineStrategies.findSome? (fun s => s io_dev plc_tags) with
    | some result => result
    | none => mkIoListOnlyResult io_dev

/-- The source lines phase 1 records for one result: its PLC tag's line
when the tag exists and the line number is non-zero (truthy). -/
def recordedLines (r : MatchResult) : List Nat :=
  match r.plc_tag with
  | some t => if t.source_line ≠ 0 then [t.source_line] else []
  | none => []

/-- Phase 1 of `MatchingEngine.run`: one result per device, in input
order, together with the set of matched PLC source lines. -/
def runPhase1 (plc_tags : List PLCTag) : List IODevice → List MatchResult × List Nat
  | [] => ([], [])
  | d :: ds =>
    let r := classifyDevice plc_tags d
    let (rs, ls) := runPhase1 plc_tags ds
    (r :: rs, recordedLines r ++ ls)

/-- Phase-2 filter of `MatchingEngine.run`: keep a tag when its source
line was not matched, it is an EtherNet/IP device tag, and it is a Tag
record. -/
def phase2Keep (matched : List Nat) (t : PLCTag) : Bool :=
  !(matched.contains t.source_line) && is_enet_device_tag t &&
    (match t.record_type with | RecordType.tag => true | _ => false)

/-- The PLC-Only result phase 2 emits for a leftover EtherNet/IP tag. -/
def mkPlcOnlyResult (t : PLCTag) : MatchResult :=
  { plc_tag := some t
    classification := Classification.plcOnly
    audit_trail :=
      ["PLC TAG " ++ t.name ++ " has no matching IO List device",
       "Classified as PLC Only (ENet device)"] }

/-- `MatchingEngine.run`: phase 1 per-device classification followed by
phase 2 leftover PLC-only emission. -/
def engineRun (io_devices : List IODevice) (plc_tags : List PLCTag) :
    List MatchResult :=
  let (results, matched) := runPhase1 plc_tags io_devices
  results ++ (plc_tags.filter (phase2Keep matched)).map mkPlcOnlyResult

/-! ### `l5x_to_crosscheck.py` — the enrichment pass

`enrich_results` mutates `MatchResult` objects in place and, in one
branch, mutates the referenced `PLCTag` object itself.  Python object
references to PLC tags are therefore modelled as indices into an explicit
tag heap (a list of `PLCTag` values): in-place mutation updates the heap
cell, while constructing a new `PLCTag` appends a cell. -/

/-- One alias dict of the pre-indexed L5X data (name, alias_for,
description). -/
structure AliasEntry where
  name : String
  alias_for : String
  description : String := ""
deriving DecidableEq

/-- The lookup structures `extract_l5x_enrichment` hands to
`enrich_results`: dictionaries become association lists, sets become
lists used through membership only. -/
structure L5XEnrichment where
  alias_by_address : List (String × List AliasEntry) := []
  alias_by_name : List (String × AliasEntry) := []
  module_names : List String := []
  module_addresses : List String := []
  rung_references : List String := []

/-- Dictionary lookup in `alias_by_address`. -/
def lookupAddr (e : L5XEnrichment) (k : String) : Option (List AliasEntry) :=
  (e.alias_by_address.find? (fun p => p.1 = k)).map (fun p => p.2)

/-- Dictionary lookup in `alias_by_name`. -/
def lookupName (e : L5XEnrichment) (k : String) : Option AliasEntry :=
  (e.alias_by_name.find? (fun p => p.1 = k)).map (fun p => p.2)

/-- A `MatchResult` as the enrichment pass sees it: the `plc_tag` field
holds the reference (heap index) of the PLCTag object, not a copy. -/
structure MatchResultRef where
  io_device : Option IODevice := none
  plc_tag : Option Nat := none
  strategy_id : Nat := 0
  confidence : Confidence := Confidence.exact
  classification : Classification := Classification.ioListOnly
  conflict_flag : Bool := false
  audit_trail : List String := []
  reviewer : String := ""
  review_timestamp : String := ""
  sources : List String := []
deriving DecidableEq

/-- Placeholder tag used as the default of heap reads (a Python reference
can never dangle, so this default is unreachable for states that come
from the program). -/
def emptyPLCTag : PLCTag :=
  { record_type := RecordType.tag, name := "" }

/-- Dereference a tag-heap index. -/
def heapTag (h : List PLCTag) (i : Nat) : PLCTag :=
  h.getD i emptyPLCTag

/-- A default `MatchResultRef` used only as the out-of-range value of
list indexing in theorem statements. -/
def emptyResultRef : MatchResultRef := {}

/-- The error the source raises at `Classification.RACK_ONLY`: the
`Classification` enum of `models.py` has no such member. -/
def attrErrMsg : String :=
  "AttributeError: Classification has no member RACK_ONLY"

/-- PLC-tag side of one `enrich_results` iteration (alias-by-name
confirmation with in-place description fill, then alias-by-address
confirmation of the specifier).  Returns the updated heap and the
confirmation entries. -/
def stepTag (e : L5XEnrichment) (h : List PLCTag) (r : MatchResultRef) :
    List PLCTag × List String :=
  match r.plc_tag with
  | none => (h, [])
  | some i =>
    let tag := heapTag h i
    let tag_name_norm := normalize_tag tag.name
    let hc1 :=
      match lookupName e tag_name_norm with
      | none => (h, ([] : List String))
      | some al =>
        let base := ["L5X alias " ++ al.name ++ " for " ++ al.alias_for ++ " confirms tag"]
        if tag.description = "" ∧ al.description ≠ "" then
          (h.set i { tag with description := al.description },
           base ++ ["L5X supplied description: " ++ al.description])
        else (h, base)
    let c2 :=
      if tag.specifier ≠ "" then
        match lookupAddr e (normalize_address tag.specifier) with
        | some aliases =>
          ["L5X alias(es) " ++ intercalateStr ", " (aliases.map (fun a => a.name)) ++
            " confirm address " ++ tag.specifier]
        | none => []
      else []
    (hc1.1, hc1.2 ++ c2)

/-- The device-tag-as-module-name confirmation of `enrich_results`. -/
def moduleNameConf (e : L5XEnrichment) (dev : IODevice) : List String :=
  if dev.device_tag ≠ "" && e.module_names.contains (toLowerStr dev.device_tag) then
    ["L5X module " ++ dev.device_tag ++ " confirms IO hardware exists"]
  else []

/-- The alias-by-address block for the IO device side of one
`enrich_results` iteration: confirmation of the device address plus, when
the result currently points to a bare rack-level tag and exactly one
alias exists at the address, the upgrade that constructs a **new** PLCTag
(appended to the heap) and repoints this one result at it.  Returns
(alias found, heap, result, confirmation entries). -/
def aliasUpgrade (e : L5XEnrichment) (h : List PLCTag) (r : MatchResultRef)
    (dev : IODevice) : Bool × List PLCTag × MatchResultRef × List String :=
  match lookupAddr e (normalize_address dev.plc_address) with
  | none => (false, h, r, [])
  | some aliases =>
    let names := intercalateStr ", " (aliases.map (fun a => a.name))
    let cB0 := ["L5X alias(es) " ++ names ++ " reference device address " ++ dev.plc_address]
    match r.plc_tag, aliases with
    | some i, [al] =>
      let cur := heapTag h i
      let rack_base := toLowerStr (trimStr cur.name)
      let addr_base := toLowerStr (trimStr (headBeforeDot dev.plc_address))
      if rack_base = addr_base then
        let newTag : PLCTag :=
          { record_type := RecordType.tag
            name := al.name
            description := if al.description ≠ "" then al.description else cur.description
            specifier := al.alias_for }
        (true, h ++ [newTag], { r with plc_tag := some h.length },
         cB0 ++ ["L5X upgraded PLC tag from rack-level " ++ cur.name ++
           " to alias " ++ al.name])
      else (true, h, r, cB0)
    | _, _ => (true, h, r, cB0)

/-- IO-device side of one `enrich_results` iteration: module-address
confirmation, the alias-by-address block, the rung CDATA pass (whose
unused-point branch evaluates the missing `Classification.RACK_ONLY`
member and therefore errors), and the device-tag module-name
confirmation. -/
def stepDevice (e : L5XEnrichment) (h : List PLCTag) (r : MatchResultRef) :
    Except String (List PLCTag × MatchResultRef × List String) :=
  match r.io_device with
  | none => Except.ok (h, r, [])
  | some dev =>
    if dev.plc_address = "" then Except.ok (h, r, moduleNameConf e dev)
    else
      let cA :=
        if e.module_addresses.contains (toLowerStr dev.plc_address) then
          ["L5X module tree confirms hardware at " ++ dev.plc_address]
        else []
      let u := aliasUpgrade e h r dev
      let fmt := detect_address_format dev.plc_address
      if u.1 = false ∧ (fmt = "CLX" ∨ fmt = "PLC5") ∧
          e.rung_references ≠ [] ∧ u.2.2.1.classification ≠ Classification.spare then
        if e.rung_references.contains (toLowerStr dev.plc_address) then
          Except.ok (u.2.1, u.2.2.1, cA ++ u.2.2.2 ++
            ["L5X rung CDATA references address " ++ dev.plc_address ++
              " directly (no alias, used in logic)"] ++ moduleNameConf e dev)
        else Except.error attrErrMsg
      else Except.ok (u.2.1, u.2.2.1, cA ++ u.2.2.2 ++ moduleNameConf e dev)

/-- Spare CDATA check of `enrich_results`: a Spare point whose address
(or an alias of it) is referenced in rung CDATA becomes a Conflict. -/
def stepSpare (e : L5XEnrichment) (r : MatchResultRef) :
    MatchResultRef × List String :=
  match r.io_device with
  | none => (r, [])
  | some dev =>
    if r.classification = Classification.spare ∧ dev.plc_address ≠ "" ∧
        e.rung_references ≠ [] then
      let addr_lower := toLowerStr dev.plc_address
      let addr_key := normalize_address dev.plc_address
      let found :=
        e.rung_references.contains addr_lower ||
        (match lookupAddr e addr_key with
         | some aliases => aliases.any (fun a => e.rung_references.contains (toLowerStr a.name))
         | none => false)
      if found then
        ({ r with classification := Classification.conflict, conflict_flag := true },
         ["L5X: IO list marks " ++ dev.plc_address ++
           " as spare but address is referenced in rung CDATA - point is used in logic"])
      else (r, [])
    else (r, [])

/-- Trailing block of one `enrich_results` iteration: when any
confirmation was produced, add the L5X source once (idempotent) and
append all confirmation entries to the audit trail. -/
def applyConfs (r : MatchResultRef) (confs : List String) : MatchResultRef :=
  if confs = [] then r
  else
    let r1 := if r.sources.contains "L5X" then r
              else { r with sources := r.sources ++ ["L5X"] }
    { r1 with audit_trail := r1.audit_trail ++ confs }

/-- One iteration of the `enrich_results` loop for a single result: the
PLC-tag side, the IO-device side (which may raise), the spare CDATA
check, then the application of the collected confirmations. -/
def enrichOne (e : L5XEnrichment) (h : List PLCTag) (r : MatchResultRef) :
    Except String (List PLCTag × MatchResultRef) :=
  let tc := stepTag e h r
  match stepDevice e tc.1 r with
  | Except.error m => Except.error m
  | Except.ok p =>
    let sp := stepSpare e p.2.1
    Except.ok (p.1, applyConfs sp.1 (tc.2 ++ p.2.2 ++ sp.2))

/-- `enrich_results`: enrich every result in list order, threading the
tag heap; a raised exception aborts the pass. -/
def enrich_results (e : L5XEnrichment) :
    List MatchResultRef → List PLCTag → Except String (List MatchResultRef × List PLCTag)
  | [], h => Except.ok ([], h)
  | r :: rest, h =>
    match enrichOne e h r with
    | Except.error m => Except.error m
    | Except.ok p =>
      match enrich_results e rest p.1 with
      | Except.error m => Except.error m
      | Except.ok q => Except.ok (p.2 :: q.1, q.2)

/-! ### Helper lemmas about the cascade -/

/-- Both branches of strategy 1 carry the matched device. -/
theorem directCLXBranch_io_device (dev : IODevice) (t : PLCTag) :
    (directCLXBranch dev t).io_device = some dev := by
  unfold directCLXBranch; split <;> rfl

/-- Every result `directCLXScan` produces carries the scanned device. -/
theorem directCLXScan_io_device (dev : IODevice) (na : String) :
    ∀ (tags : List PLCTag) (r : MatchResult),
      directCLXScan dev na tags = some r → r.io_device = some dev := by
  intro tags
  induction tags with
  | nil => intro r hr; simp [directCLXScan] at hr
  | cons t rest ih =>
    intro r hr
    simp only [directCLXScan] at hr
    split at hr
    · exact ih r hr
    · split at hr
      · exact ih r hr
      · split at hr
        · cases hr; exact directCLXBranch_io_device dev t
        · exact ih r hr

/-- Every result `plc5Scan` produces carries the scanned device. -/
theorem plc5Scan_io_device (dev : IODevice) (ab : String) :
    ∀ (tags : List PLCTag) (r : MatchResult),
      plc5Scan dev ab tags = some r → r.io_device = some dev := by
  intro tags
  induction tags with
  | nil => intro r hr; simp [plc5Scan] at hr
  | cons t rest ih =>
    intro r hr
    simp only [plc5Scan] at hr
    split at hr
    · exact ih r hr
    · split at hr
      · cases hr; rfl
      · exact ih r hr

/-- Every result `rackLevelScan` produces carries the scanned device. -/
theorem rackLevelScan_io_device (dev : IODevice) (b : String) :
    ∀ (tags : List PLCTag) (r : MatchResult),
      rackLevelScan dev b tags = some r → r.io_device = some dev := by
  intro tags
  induction tags with
  | nil => intro r hr; simp [rackLevelScan] at hr
  | cons t rest ih =>
    intro r hr
    simp only [rackLevelScan] at hr
    split at hr
    · exact ih r hr
    · split at hr
      · cases hr; rfl
      · exact ih r hr

/-- Every result `enetScan` produces carries the scanned device. -/
theorem enetScan_io_device (dev : IODevice) (a b : String) :
    ∀ (tags : List PLCTag) (r : MatchResult),
      enetScan dev a b tags = some r → r.io_device = some dev := by
  intro tags
  induction tags with
  | nil => intro r hr; simp [enetScan] at hr
  | cons t rest ih =>
    intro r hr
    simp only [enetScan] at hr
    split at hr
    · exact ih r hr
    · split at hr
      · exact ih r hr
      · split at hr
        · cases hr; rfl
        · exact ih r hr

/-- Every result `tagNameScan` produces carries the scanned device. -/
theorem tagNameScan_io_device (dev : IODevice) (cands : List String) :
    ∀ (tags : List PLCTag) (r : MatchResult),
      tagNameScan dev cands tags = some r → r.io_device = some dev := by
  intro tags
  induction tags with
  | nil => intro r hr; simp [tagNameScan] at hr
  | cons t rest ih =>
    intro r hr
    simp only [tagNameScan] at hr
    split at hr
    · cases hr; rfl
    · exact ih r hr

/-- Every result of strategy 1 carries the matched device. -/
theorem directCLXAddressMatch_io_device (dev : IODevice) (tags : List PLCTag)
    (r : MatchResult) (hr : directCLXAddressMatch dev tags = some r) :
    r.io_device = some dev := by
  simp only [directCLXAddressMatch] at hr
  split at hr
  · simp at hr
  · split at hr
    · simp at hr
    · exact directCLXScan_io_device dev _ tags r hr

/-- Every result of strategy 2 carries the matched device. -/
theorem plc5RackAddressMatch_io_device (dev : IODevice) (tags : List PLCTag)
    (r : MatchResult) (hr : plc5RackAddressMatch dev tags = some r) :
    r.io_device = some dev := by
  simp only [plc5RackAddressMatch] at hr
  split at hr
  · simp at hr
  · split at hr
    · simp at hr
    · exact plc5Scan_io_device dev _ tags r hr

/-- Every result of strategy 4 carries the matched device. -/
theorem enetModuleTagExtraction_io_device (dev : IODevice) (tags : List PLCTag)
    (r : MatchResult) (hr : enetModuleTagExtraction dev tags = some r) :
    r.io_device = some dev := by
  simp only [enetModuleTagExtraction] at hr
  repeat' split at hr
  all_goals first
    | exact Option.noConfusion hr
    | exact enetScan_io_device _ _ _ _ _ hr

/-- Every result of strategy 5 carries the matched device. -/
theorem tagNameNormalizationMatch_io_device (dev : IODevice) (tags : List PLCTag)
    (r : MatchResult) (hr : tagNameNormalizationMatch dev tags = some r) :
    r.io_device = some dev := by
  simp only [tagNameNormalizationMatch] at hr
  repeat' split at hr
  all_goals first
    | exact Option.noConfusion hr
    | exact tagNameScan_io_device _ _ _ _ hr

/-- Phase 1 always attaches the device it classifies. -/
theorem classifyDevice_io_device (tags : List PLCTag) (d : IODevice) :
    (classifyDevice tags d).io_device = some d := by
  simp only [classifyDevice]
  split
  · rfl
  · split
    · next r heq =>
      simp only [engineStrategies, List.findSome?] at heq
      cases h1 : directCLXAddressMatch d tags with
      | some v =>
        rw [h1] at heq; cases heq
        exact directCLXAddressMatch_io_device d tags r h1
      | none =>
        rw [h1] at heq
        cases h2 : plc5RackAddressMatch d tags with
        | some v =>
          rw [h2] at heq; cases heq
          exact plc5RackAddressMatch_io_device d tags r h2
        | none =>
          rw [h2] at heq
          cases h3 : enetModuleTagExtraction d tags with
          | some v =>
            rw [h3] at heq; cases heq
            exact enetModuleTagExtraction_io_device d tags r h3
          | none =>
            rw [h3] at heq
            cases h4 : tagNameNormalizationMatch d tags with
            | some v =>
              rw [h4] at heq; cases heq
              exact tagNameNormalizationMatch_io_device d tags r h4
            | none => rw [h4] at heq; cases heq
    · rfl

/-- Phase-1 results are exactly the per-device classifications, in input
order. -/
theorem runPhase1_fst (tags : List PLCTag) :
    ∀ ds : List IODevice, (runPhase1 tags ds).1 = ds.map (classifyDevice tags) := by
  intro ds
  induction ds with
  | nil => rfl
  | cons d rest ih => simp [runPhase1, ih]

/-- `engineRun` is phase-1 results followed by the phase-2 leftover
PLC-only results. -/
theorem engineRun_eq (io_devices : List IODevice) (plc_tags : List PLCTag) :
    engineRun io_devices plc_tags =
      io_devices.map (classifyDevice plc_tags) ++
        (plc_tags.filter (phase2Keep (runPhase1 plc_tags io_devices).2)).map mkPlcOnlyResult := by
  simp only [engineRun, runPhase1_fst]

/-! ### Claim C4 — one result per device, stable ordering -/

/-- C4: for every input list of IODevices and PLCTags the cascade emits
exactly one IODevice-bearing result per input device, in input order (the
image of the result list under the io_device projection starts with
exactly the input devices), followed by the leftover PLC-only results,
which carry no device and are the PLC tags kept by the phase-2 filter in
PLC-tag input order (a sublist of the input tag list). -/
theorem c4_cascade_structure (io_devices : List IODevice) (plc_tags : List PLCTag) :
    (engineRun io_devices plc_tags).map (fun r => r.io_device) =
      io_devices.map some ++
        (plc_tags.filter (phase2Keep (runPhase1 plc_tags io_devices).2)).map (fun _ => none)
    ∧ (engineRun io_devices plc_tags).drop io_devices.length =
        (plc_tags.filter (phase2Keep (runPhase1 plc_tags io_devices).2)).map mkPlcOnlyResult
    ∧ ((engineRun io_devices plc_tags).filter (fun r => r.io_device.isSome)).length =
        io_devices.length
    ∧ List.Sublist (plc_tags.filter (phase2Keep (runPhase1 plc_tags io_devices).2)) plc_tags := by
  have hmap1 : (io_devices.map (classifyDevice plc_tags)).map (fun r => r.io_device) =
      io_devices.map some := by
    rw [List.map_map]
    apply List.map_congr_left
    intro d _
    exact classifyDevice_io_device plc_tags d
  have hmap2 : ∀ (ts : List PLCTag),
      (ts.map mkPlcOnlyResult).map (fun r => r.io_device) = ts.map (fun _ => none) := by
    intro ts; rw [List.map_map]; rfl
  refine ⟨?_, ?_, ?_, List.filter_sublist plc_tags⟩
  · rw [engineRun_eq, List.map_append, hmap1, hmap2]
  · rw [engineRun_eq]
    have hlen : io_devices.length = (io_devices.map (classifyDevice plc_tags)).length := by
      rw [List.length_map]
    rw [hlen, List.drop_left]
  · rw [engineRun_eq, List.filter_append]
    have h1 : (io_devices.map (classifyDevice plc_tags)).filter
        (fun r => r.io_device.isSome) = io_devices.map (classifyDevice plc_tags) := by
      apply List.filter_eq_self.mpr
      intro r hr
      rw [List.mem_map] at hr
      obtain ⟨d, _, rfl⟩ := hr
      rw [classifyDevice_io_device]
      rfl
    have h2 : ((plc_tags.filter (phase2Keep (runPhase1 plc_tags io_devices).2)).map
        mkPlcOnlyResult).filter (fun r => r.io_device.isSome) = [] := by
      apply List.filter_eq_nil_iff.mpr
      intro r hr
      rw [List.mem_map] at hr
      obtain ⟨t, _, rfl⟩ := hr
      simp [mkPlcOnlyResult]
    rw [h1, h2, List.length_append, List.length_map]
    rfl

/-! ### Claim C2 — the unused-point reclassification raises -/

/-- The concrete enrichment input of C2: a Modern-format (CLX) device
address, no alias indexed at that address, a non-empty logic-reference
set that does not contain the lowercased address, and a non-Spare result. -/
def c2Result : MatchResultRef :=
  { io_device := some { device_tag := "TSV246", plc_address := "Rack26:12:O.Data.8" }
    classification := Classification.both
    sources := ["CSV"] }

/-- The enrichment data of C2: only logic references are present. -/
def c2Enrichment : L5XEnrichment :=
  { rung_references := ["some_other_tag", "unrelated_address"] }

/-- C2: on a result meeting all of the claim's conditions the enrichment
pass does not reclassify to RackOnly; it raises an AttributeError,
because the assignment `result.classification = Classification.RACK_ONLY`
evaluates a member that `models.py` does not define.  The pass therefore
aborts instead of reclassifying, setting the conflict flag and appending
an audit entry as the claim (and the repository's own test suite)
require. -/
theorem c2_enrichment_attribute_error :
    enrich_results c2Enrichment [c2Result] [] = Except.error attrErrMsg := by rfl

/-! ### Claim C9 — source_line 0 tags are re-emitted in phase 2 -/

/-- Lines recorded by phase 1 are never zero (`source_line` must be
truthy to be recorded). -/
theorem recordedLines_nonzero (r : MatchResult) (x : Nat)
    (hx : x ∈ recordedLines r) : x ≠ 0 := by
  unfold recordedLines at hx
  split at hx
  · split at hx
    · next h =>
      rw [List.mem_singleton] at hx
      exact hx ▸ h
    · simp at hx
  · simp at hx

/-- No member of the phase-1 matched-line set is zero. -/
theorem runPhase1_snd_nonzero (tags : List PLCTag) :
    ∀ (ds : List IODevice) (x : Nat), x ∈ (runPhase1 tags ds).2 → x ≠ 0 := by
  intro ds
  induction ds with
  | nil => intro x hx; simp [runPhase1] at hx
  | cons d rest ih =>
    intro x hx
    simp only [runPhase1] at hx
    rw [List.mem_append] at hx
    cases hx with
    | inl h => exact recordedLines_nonzero (classifyDevice tags d) x h
    | inr h => exact ih x h

/-- A Tag-kind EtherNet/IP tag with `source_line = 0` always passes the
phase-2 filter. -/
theorem phase2Keep_of_zero (matched : List Nat) (t : PLCTag)
    (h0 : t.source_line = 0) (hz : ∀ x ∈ matched, x ≠ 0)
    (he : is_enet_device_tag t = true) (ht : t.record_type = RecordType.tag) :
    phase2Keep matched t = true := by
  unfold phase2Keep
  rw [h0, he, ht]
  have hc : matched.contains 0 = false := by
    by_contra hcc
    rw [Bool.not_eq_false] at hcc
    have : (0 : Nat) ∈ matched := by
      simpa using hcc
    exact hz 0 this rfl
  rw [hc]
  rfl

/-- The device and tag of C9's concrete scenario: the tag pairs with the
device through strategy 4 in phase 1 and, its source line being 0, is
emitted again as PLC-only in phase 2. -/
def c9Dev : IODevice := { io_tag := "P621", device_tag := "P621" }

/-- The Tag-kind EtherNet/IP tag of C9's concrete scenario. -/
def c9Tag : PLCTag :=
  { record_type := RecordType.tag, name := "E300_P621:I", base_name := "E300_P621" }

/-- C9: phase 2 skips a tag only when its source line is recorded in the
matched set, and phase 1 records only non-zero lines; hence every
Tag-kind EtherNet/IP tag with source_line = 0 yields a PLC-only result in
phase 2 — even when (concrete scenario) the same tag was already paired
with a device in phase 1, so that it appears in two results. -/
theorem c9_zero_line_plc_only :
    (∀ (io_devices : List IODevice) (plc_tags : List PLCTag) (t : PLCTag),
      t ∈ plc_tags → t.record_type = RecordType.tag →
      is_enet_device_tag t = true → t.source_line = 0 →
      mkPlcOnlyResult t ∈ engineRun io_devices plc_tags) ∧
    (engineRun [c9Dev] [c9Tag]).map (fun r => (r.plc_tag, r.classification)) =
      [(some c9Tag, Classification.both), (some c9Tag, Classification.plcOnly)] := by
  constructor
  · intro io_devices plc_tags t htmem http henet h0
    rw [engineRun_eq]
    apply List.mem_append_right
    apply List.mem_map_of_mem
    rw [List.mem_filter]
    exact ⟨htmem,
      phase2Keep_of_zero _ t h0 (runPhase1_snd_nonzero plc_tags io_devices) henet http⟩
  · rfl

/-- Witness for C9: the general part applied at the concrete scenario. -/
theorem c9_zero_line_plc_only_witness :
    mkPlcOnlyResult c9Tag ∈ engineRun [c9Dev] [c9Tag] :=
  c9_zero_line_plc_only.1 [c9Dev] [c9Tag] c9Tag (by simp) rfl rfl rfl

/-! ### Claim C8 — normalized-name strategy uses exact membership only -/

/-- `normalize_tag` of the empty string is empty. -/
theorem normalize_tag_empty : normalize_tag "" = "" := rfl

/-- The guarded form `io_tag_norm` equals the plain normalization. -/
theorem ioTagNorm_eq (dev : IODevice) : ioTagNorm dev = normalize_tag dev.io_tag := by
  unfold ioTagNorm
  split
  · rfl
  · next h =>
    rw [not_ne_iff] at h
    rw [h]
    exact normalize_tag_empty.symm

/-- The guarded form `dev_tag_norm` equals the plain normalization. -/
theorem devTagNorm_eq (dev : IODevice) : devTagNorm dev = normalize_tag dev.device_tag := by
  unfold devTagNorm
  split
  · rfl
  · next h =>
    rw [not_ne_iff] at h
    rw [h]
    exact normalize_tag_empty.symm

/-- What a strategy-5 hit guarantees: the matched tag is in the scanned
list and owns a comparison name that passed the membership test. -/
theorem tagNameScan_exact (dev : IODevice) (cands : List String) :
    ∀ (tags : List PLCTag) (r : MatchResult), tagNameScan dev cands tags = some r →
      ∃ t ∈ tags, r.plc_tag = some t ∧
        ∃ p, (p ≠ "" && cands.contains p) = true ∧ p ∈ plcNamesOf t := by
  intro tags
  induction tags with
  | nil => intro r hr; simp [tagNameScan] at hr
  | cons t rest ih =>
    intro r hr
    simp only [tagNameScan] at hr
    split at hr
    · rename_i plc_name hfind
      cases hr
      have hps := List.find?_some hfind
      have hpm := List.mem_of_find?_eq_some hfind
      exact ⟨t, List.mem_cons_self t rest, rfl, plc_name, hps, hpm⟩
    · obtain ⟨u, hu, hv, hp⟩ := ih r hr
      exact ⟨u, List.mem_cons_of_mem t hu, hv, hp⟩

/-- Membership in the candidate set is exact equality with one of the
non-empty normalized IO names. -/
theorem mem_tnCandidates (dev : IODevice) (p : String) (hp : p ∈ tnCandidates dev) :
    (normalize_tag dev.io_tag ≠ "" ∧ p = normalize_tag dev.io_tag) ∨
    (normalize_tag dev.device_tag ≠ "" ∧ p = normalize_tag dev.device_tag) := by
  unfold tnCandidates at hp
  rw [List.mem_append] at hp
  cases hp with
  | inl h =>
    left
    rw [ioTagNorm_eq] at h
    split at h
    · next hne => rw [List.mem_singleton] at h; exact ⟨hne, h⟩
    · simp at h
  | inr h =>
    right
    rw [devTagNorm_eq] at h
    split at h
    · next hne => rw [List.mem_singleton] at h; exact ⟨hne, h⟩
    · simp at h

/-- C8: a strategy-5 hit is always an exact equality between a non-empty
comparison name of the matched tag and a non-empty normalized IO name —
never a substring relation; in particular the IO tag LT611 never matches
the PLC tag LT6110_Monitor and the reverse direction fails as well. -/
theorem c8_exact_membership_only :
    (∀ (dev : IODevice) (plc_tags : List PLCTag) (r : MatchResult),
      tagNameNormalizationMatch dev plc_tags = some r →
      ∃ t ∈ plc_tags, r.plc_tag = some t ∧
        ∃ p, p ≠ "" ∧ p ∈ plcNamesOf t ∧
          ((normalize_tag dev.io_tag ≠ "" ∧ p = normalize_tag dev.io_tag) ∨
           (normalize_tag dev.device_tag ≠ "" ∧ p = normalize_tag dev.device_tag))) ∧
    tagNameNormalizationMatch { io_tag := "LT611", device_tag := "LT611" }
      [{ record_type := RecordType.tag, name := "LT6110_Monitor",
         base_name := "LT6110_Monitor" }] = none ∧
    tagNameNormalizationMatch { io_tag := "LT6110_Monitor", device_tag := "LT6110_Monitor" }
      [{ record_type := RecordType.tag, name := "LT611", base_name := "LT611" }] = none := by
  refine ⟨?_, rfl, rfl⟩
  intro dev plc_tags r hr
  unfold tagNameNormalizationMatch at hr
  split at hr
  · exact Option.noConfusion hr
  · obtain ⟨t, ht, hv, p, hcond, hp⟩ := tagNameScan_exact dev (tnCandidates dev) plc_tags r hr
    rw [Bool.and_eq_true] at hcond
    refine ⟨t, ht, hv, p, by simpa using hcond.1, hp, ?_⟩
    apply mem_tnCandidates
    have := hcond.2
    simpa using this

/-- The device of C8's witness scenario. -/
def c8wDev : IODevice := { io_tag := "TSV22_EV", device_tag := "TSV22" }

/-- The Comment record of C8's witness scenario. -/
def c8wTag : PLCTag :=
  { record_type := RecordType.comment, name := "Rack0:I", description := "TSV22" }

/-- Witness for C8: the general part applied at the suffix-stripping
vector (IO tag TSV22_EV matching the Comment description TSV22). -/
theorem c8_exact_membership_only_witness :
    ∃ (r : MatchResult), tagNameNormalizationMatch c8wDev [c8wTag] = some r ∧
      ∃ t ∈ [c8wTag], r.plc_tag = some t ∧
        ∃ p, p ≠ "" ∧ p ∈ plcNamesOf t ∧
          ((normalize_tag c8wDev.io_tag ≠ "" ∧ p = normalize_tag c8wDev.io_tag) ∨
           (normalize_tag c8wDev.device_tag ≠ "" ∧ p = normalize_tag c8wDev.device_tag)) :=
  ⟨_, rfl, c8_exact_membership_only.1 c8wDev [c8wTag] _ rfl⟩

/-! ### Claims C10 and C5 — strategy 1 commitment and branch rule -/

/-- The scan of strategy 1 skips every non-matching record. -/
theorem directCLXScan_skip (dev : IODevice) (na : String) :
    ∀ (pre rest : List PLCTag),
      (∀ t ∈ pre, ¬(t.record_type = RecordType.comment ∧ t.specifier ≠ "" ∧
        normalize_address t.specifier = na)) →
      directCLXScan dev na (pre ++ rest) = directCLXScan dev na rest := by
  intro pre
  induction pre with
  | nil => intro rest _; rfl
  | cons t pre ih =>
    intro rest hpre
    have hnot := hpre t (List.mem_cons_self t pre)
    have htail : ∀ u ∈ pre, ¬(u.record_type = RecordType.comment ∧ u.specifier ≠ "" ∧
        normalize_address u.specifier = na) :=
      fun u hu => hpre u (List.mem_cons_of_mem t hu)
    rw [List.cons_append]
    simp only [directCLXScan]
    split
    · exact ih rest htail
    · next h1 =>
      rw [not_ne_iff] at h1
      split
      · exact ih rest htail
      · next h2 =>
        split
        · next h3 => exact absurd ⟨h1, h2, h3⟩ hnot
        · exact ih rest htail

/-- At the first matching Comment the scan commits to its branch result,
ignoring all later records. -/
theorem directCLXScan_cons_hit (dev : IODevice) (na : String) (c : PLCTag)
    (rest : List PLCTag) (h1 : c.record_type = RecordType.comment)
    (h2 : c.specifier ≠ "") (h3 : normalize_address c.specifier = na) :
    directCLXScan dev na (c :: rest) = some (directCLXBranch dev c) := by
  simp only [directCLXScan]
  rw [if_neg (by simp [h1]), if_neg (by simp [h2]), if_pos h3]

/-- Strategy 1 on an applicable device is exactly its scan. -/
theorem directCLXAddressMatch_eq_scan (dev : IODevice) (tags : List PLCTag)
    (hf : dev.address_format = AddressFormat.clx) (ha : dev.plc_address ≠ "") :
    directCLXAddressMatch dev tags =
      directCLXScan dev (normalize_address dev.plc_address) tags := by
  unfold directCLXAddressMatch
  rw [if_neg (by simp [hf]), if_neg (by simp [ha])]

/-- The branch of strategy 1 always attaches the Comment it fired on. -/
theorem directCLXBranch_plc_tag (dev : IODevice) (c : PLCTag) :
    (directCLXBranch dev c).plc_tag = some c := by
  unfold directCLXBranch; split <;> rfl

/-- The branch of strategy 1 classifies Both or Conflict, nothing else. -/
theorem directCLXBranch_classification (dev : IODevice) (c : PLCTag) :
    (directCLXBranch dev c).classification = Classification.both ∨
      (directCLXBranch dev c).classification = Classification.conflict := by
  unfold directCLXBranch
  split
  · exact Or.inl rfl
  · exact Or.inr rfl

/-- The concrete device of C10: FT656B at Rack0:I.Data[5].6. -/
def c10Dev : IODevice :=
  { plc_address := "Rack0:I.Data[5].6", io_tag := "FT656B_Pulse",
    device_tag := "FT656B", address_format := AddressFormat.clx }

/-- A Comment at that address whose description disagrees. -/
def c10Disagree : PLCTag :=
  { record_type := RecordType.comment, name := "Rack0:I",
    description := "HLSTL5C", specifier := "Rack0:I.DATA[5].6" }

/-- A Comment at the same address whose description agrees. -/
def c10Agree : PLCTag :=
  { record_type := RecordType.comment, name := "Rack0:I",
    description := "FT656B", specifier := "Rack0:I.DATA[5].6" }

/-- C10: strategy 1 commits to the first Comment record, in tag-list
order, whose normalized specifier equals the normalized device address:
the result is that record's Both-or-Conflict branch, unchanged by
whatever follows it in the list; concretely, a disagreeing Comment placed
before an agreeing one at the same address yields Conflict with the
earlier Comment attached. -/
theorem c10_first_comment_commits :
    (∀ (dev : IODevice) (pre post post2 : List PLCTag) (c : PLCTag),
      dev.address_format = AddressFormat.clx → dev.plc_address ≠ "" →
      (∀ t ∈ pre, ¬(t.record_type = RecordType.comment ∧ t.specifier ≠ "" ∧
        normalize_address t.specifier = normalize_address dev.plc_address)) →
      c.record_type = RecordType.comment → c.specifier ≠ "" →
      normalize_address c.specifier = normalize_address dev.plc_address →
      directCLXAddressMatch dev (pre ++ c :: post) = some (directCLXBranch dev c) ∧
      directCLXAddressMatch dev (pre ++ c :: post) =
        directCLXAddressMatch dev (pre ++ c :: post2) ∧
      (directCLXBranch dev c).plc_tag = some c ∧
      ((directCLXBranch dev c).classification = Classification.both ∨
        (directCLXBranch dev c).classification = Classification.conflict)) ∧
    (directCLXAddressMatch c10Dev [c10Disagree, c10Agree]).map
        (fun r => (r.plc_tag, r.classification, r.conflict_flag)) =
      some (some c10Disagree, Classification.conflict, true) := by
  constructor
  · intro dev pre post post2 c hf ha hpre h1 h2 h3
    have hev : ∀ (post' : List PLCTag),
        directCLXAddressMatch dev (pre ++ c :: post') = some (directCLXBranch dev c) := by
      intro post'
      rw [directCLXAddressMatch_eq_scan dev _ hf ha,
        directCLXScan_skip dev _ pre (c :: post') hpre,
        directCLXScan_cons_hit dev _ c post' h1 h2 h3]
    exact ⟨hev post, by rw [hev post, hev post2], directCLXBranch_plc_tag dev c,
      directCLXBranch_classification dev c⟩
  · rfl

/-- Witness for C10: the general part applied at the concrete
disagree-before-agree scenario. -/
theorem c10_first_comment_commits_witness :
    directCLXAddressMatch c10Dev ([] ++ c10Disagree :: [c10Agree]) =
      some (directCLXBranch c10Dev c10Disagree) ∧
    directCLXAddressMatch c10Dev ([] ++ c10Disagree :: [c10Agree]) =
      directCLXAddressMatch c10Dev ([] ++ c10Disagree :: []) ∧
    (directCLXBranch c10Dev c10Disagree).plc_tag = some c10Disagree ∧
    ((directCLXBranch c10Dev c10Disagree).classification = Classification.both ∨
      (directCLXBranch c10Dev c10Disagree).classification = Classification.conflict) :=
  c10_first_comment_commits.1 c10Dev [] [c10Agree] [] c10Disagree rfl
    (by decide) (fun t ht => absurd ht (List.not_mem_nil t)) rfl (by decide) (by decide)

/-- The statement of claim C5, following the claim's words: once a
Comment record's normalized specifier equals the device's normalized
address, the result is Both/Exact when the trimmed, case-folded
description agrees with the normalized io_tag or device_tag or either
side is empty (the description, or the device's identifying name io_tag
or device_tag), and Conflict/Exact with the conflict flag whenever both
the identifying name and the description are non-empty and disagree. -/
def c5ClaimStatement : Prop :=
  ∀ (dev : IODevice) (c : PLCTag) (r : MatchResult),
    dev.address_format = AddressFormat.clx →
    dev.plc_address ≠ "" →
    c.record_type = RecordType.comment →
    c.specifier ≠ "" →
    normalize_address c.specifier = normalize_address dev.plc_address →
    directCLXAddressMatch dev [c] = some r →
    ((toLowerStr (trimStr c.description) = normalize_tag dev.io_tag ∨
      toLowerStr (trimStr c.description) = normalize_tag dev.device_tag ∨
      toLowerStr (trimStr c.description) = "" ∨
      (dev.io_tag = "" ∧ dev.device_tag = "")) →
      r.classification = Classification.both ∧ r.confidence = Confidence.exact) ∧
    (((dev.io_tag ≠ "" ∨ dev.device_tag ≠ "") ∧
      toLowerStr (trimStr c.description) ≠ "" ∧
      toLowerStr (trimStr c.description) ≠ normalize_tag dev.io_tag ∧
      toLowerStr (trimStr c.description) ≠ normalize_tag dev.device_tag) →
      r.classification = Classification.conflict ∧ r.conflict_flag = true)

/-- The device refuting C5: its io_tag is empty while its device_tag is
FT656B, and the Comment description disagrees with everything. -/
def c5Dev : IODevice :=
  { plc_address := "Rack0:I.Data[5].6", io_tag := "",
    device_tag := "FT656B", address_format := AddressFormat.clx }

/-- The matching Comment of the C5 counterexample. -/
def c5Comment : PLCTag :=
  { record_type := RecordType.comment, name := "Rack0:I",
    description := "HLSTL5C", specifier := "Rack0:I.DATA[5].6" }

/-- Counterexample to C5: at `c5Dev`/`c5Comment` the device's identifying
name (device_tag FT656B) and the description (HLSTL5C) are both non-empty
and disagree, so the claim demands Conflict — but the code tests only the
normalized io_tag for emptiness (`io_base`), finds it empty, and returns
Both with no conflict flag. -/
theorem c5_counterexample : ¬ c5ClaimStatement := by
  intro hcl
  have h := hcl c5Dev c5Comment (directCLXBranch c5Dev c5Comment) rfl (by decide)
    rfl (by decide) (by decide) (by rfl)
  have h2 := h.2 ⟨Or.inr (by decide), by decide, by decide, by decide⟩
  have hb : (directCLXBranch c5Dev c5Comment).classification = Classification.both := by rfl
  rw [hb] at h2
  exact Classification.noConfusion h2.1

/-- C5 amended: as C5, except that the empty-name escape is exactly the
code's: the result is Both/Exact when the trimmed case-folded description
agrees with the normalized io_tag or normalized device_tag, or the
description is empty, or the *normalized io_tag* is empty (the device_tag
is not consulted for emptiness); it is Conflict/Exact with the conflict
flag when the description and the normalized io_tag are both non-empty
and the description disagrees with both normalized names. -/
theorem c5_amended_branch_rule (dev : IODevice) (pre post : List PLCTag)
    (c : PLCTag) (r : MatchResult)
    (hf : dev.address_format = AddressFormat.clx) (ha : dev.plc_address ≠ "")
    (hpre : ∀ t ∈ pre, ¬(t.record_type = RecordType.comment ∧ t.specifier ≠ "" ∧
      normalize_address t.specifier = normalize_address dev.plc_address))
    (h1 : c.record_type = RecordType.comment) (h2 : c.specifier ≠ "")
    (h3 : normalize_address c.specifier = normalize_address dev.plc_address)
    (hr : directCLXAddressMatch dev (pre ++ c :: post) = some r) :
    r.confidence = Confidence.exact ∧ r.strategy_id = 1 ∧
    (((clxPlcDesc c ≠ "" ∧
        (clxPlcDesc c = clxIoBase dev ∨ clxPlcDesc c = clxIoDevBase dev)) ∨
      clxPlcDesc c = "" ∨ clxIoBase dev = "") →
      r.classification = Classification.both ∧ r.conflict_flag = false) ∧
    ((clxPlcDesc c ≠ "" ∧ clxPlcDesc c ≠ clxIoBase dev ∧
      clxPlcDesc c ≠ clxIoDevBase dev ∧ clxIoBase dev ≠ "") →
      r.classification = Classification.conflict ∧ r.conflict_flag = true) := by
  rw [directCLXAddressMatch_eq_scan dev _ hf ha,
    directCLXScan_skip dev _ pre (c :: post) hpre,
    directCLXScan_cons_hit dev _ c post h1 h2 h3] at hr
  cases hr
  unfold directCLXBranch
  split
  · next hm =>
    refine ⟨rfl, rfl, fun _ => ⟨rfl, rfl⟩, fun hc => ?_⟩
    unfold clxNameMatches at hm
    rcases hm with ⟨_, hor⟩ | hdesc | hio
    · rcases hor with heq | heq
      · exact absurd heq hc.2.1
      · exact absurd heq hc.2.2.1
    · exact absurd hdesc hc.1
    · exact absurd hio hc.2.2.2
  · next hm =>
    refine ⟨rfl, rfl, fun hmm => ?_, fun _ => ⟨rfl, rfl⟩⟩
    exact absurd hmm hm

/-- The conflict-vector device of C5's witness (both names non-empty). -/
def c5wDev : IODevice :=
  { plc_address := "Rack0:I.Data[5].6", io_tag := "FT656B_Pulse",
    device_tag := "FT656B", address_format := AddressFormat.clx }

/-- The disagreeing Comment of C5's witness. -/
def c5wComment : PLCTag :=
  { record_type := RecordType.comment, name := "Rack0:I",
    description := "HLSTL5C", specifier := "Rack0:I.DATA[5].6" }

/-- Witness for C5: the amended rule applied at the spec's conflict
vector FT656B_Pulse versus description HLSTL5C. -/
theorem c5_amended_branch_rule_witness :
    (directCLXBranch c5wDev c5wComment).confidence = Confidence.exact ∧
    (directCLXBranch c5wDev c5wComment).strategy_id = 1 ∧
    (((clxPlcDesc c5wComment ≠ "" ∧
        (clxPlcDesc c5wComment = clxIoBase c5wDev ∨
          clxPlcDesc c5wComment = clxIoDevBase c5wDev)) ∨
      clxPlcDesc c5wComment = "" ∨ clxIoBase c5wDev = "") →
      (directCLXBranch c5wDev c5wComment).classification = Classification.both ∧
        (directCLXBranch c5wDev c5wComment).conflict_flag = false) ∧
    ((clxPlcDesc c5wComment ≠ "" ∧ clxPlcDesc c5wComment ≠ clxIoBase c5wDev ∧
      clxPlcDesc c5wComment ≠ clxIoDevBase c5wDev ∧ clxIoBase c5wDev ≠ "") →
      (directCLXBranch c5wDev c5wComment).classification = Classification.conflict ∧
        (directCLXBranch c5wDev c5wComment).conflict_flag = true) :=
  c5_amended_branch_rule c5wDev [] [] c5wComment (directCLXBranch c5wDev c5wComment)
    rfl (by decide) (fun t ht => absurd ht (List.not_mem_nil t)) rfl (by decide)
    (by decide) (by rfl)

/-! ### Claim C1 — the modelled rack-level third cascade step -/

/-- Strategy 2 declines every device whose family is Modern (CLX). -/
theorem plc5RackAddressMatch_none_of_clx (dev : IODevice) (tags : List PLCTag)
    (h : dev.address_format = AddressFormat.clx) :
    plc5RackAddressMatch dev tags = none := by
  unfold plc5RackAddressMatch
  rw [h, if_pos (by decide)]

/-- When some Tag record's name equals the rack base case-insensitively,
the rack-level scan yields a RackOnly, Partial, strategy-3 result. -/
theorem rackLevelScan_hit (dev : IODevice) (base : String) :
    ∀ (tags : List PLCTag),
      (∃ t ∈ tags, t.record_type = RecordType.tag ∧
        toLowerStr (trimStr t.name) = toLowerStr base) →
      ∃ r, rackLevelScan dev base tags = some r ∧
        r.classification = Classification.rackOnly ∧
        r.confidence = Confidence.partialConf ∧
        r.strategy_id = 3 ∧ r.io_device = some dev := by
  intro tags
  induction tags with
  | nil => rintro ⟨t, ht, _⟩; exact absurd ht (List.not_mem_nil t)
  | cons t rest ih =>
    rintro ⟨u, hu, hurec, huname⟩
    simp only [rackLevelScan]
    split
    · next hrec =>
      rcases List.mem_cons.mp hu with rfl | hmem
      · exact absurd hurec hrec
      · exact ih ⟨u, hmem, hurec, huname⟩
    · split
      · exact ⟨_, rfl, rfl, rfl, rfl, rfl⟩
      · next hname =>
        rcases List.mem_cons.mp hu with rfl | hmem
        · exact absurd huname hname
        · exact ih ⟨u, hmem, hurec, huname⟩

/-- C1 (spec-modelled): for a Modern-family device on which strategy 1
found no match, the third step of the cascade derives the rack base from
the device address; when some Tag-kind record's name matches that base
case-insensitively, the cascade's answer for the device is the rack-level
strategy's result, classified RackOnly with Partial confidence and
strategy id 3 (strategy 2 declines automatically on a Modern device). -/
theorem c1_rack_level_third_step (dev : IODevice) (plc_tags : List PLCTag)
    (base : String) (t : PLCTag)
    (hfmt : dev.address_format = AddressFormat.clx)
    (hs1 : directCLXAddressMatch dev plc_tags = none)
    (hbase : extract_rack_base dev.plc_address = some base)
    (ht : t ∈ plc_tags) (htt : t.record_type = RecordType.tag)
    (hname : toLowerStr (trimStr t.name) = toLowerStr base) :
    ∃ r, specCascadeStrategies.findSome? (fun s => s dev plc_tags) = some r ∧
      rackLevelTagExistence dev plc_tags = some r ∧
      r.classification = Classification.rackOnly ∧
      r.confidence = Confidence.partialConf ∧
      r.strategy_id = 3 ∧ r.io_device = some dev := by
  obtain ⟨r, hscan, hcls, hconf, hsid, hio⟩ :=
    rackLevelScan_hit dev base plc_tags ⟨t, ht, htt, hname⟩
  have hrle : rackLevelTagExistence dev plc_tags = some r := by
    unfold rackLevelTagExistence
    rw [hfmt, if_neg (by decide), hbase]
    exact hscan
  refine ⟨r, ?_, hrle, hcls, hconf, hsid, hio⟩
  simp only [specCascadeStrategies, List.findSome?]
  rw [hs1, plc5RackAddressMatch_none_of_clx dev plc_tags hfmt, hrle]

/-- The device of C1's witness: AS611 with no per-point Comment. -/
def c1wDev : IODevice :=
  { plc_address := "Rack0:I.Data[6].0", io_tag := "AS611_AUX",
    device_tag := "AS611", address_format := AddressFormat.clx }

/-- The rack-level Tag of C1's witness. -/
def c1wTag : PLCTag :=
  { record_type := RecordType.tag, name := "Rack0:I", base_name := "Rack0",
    datatype := "AB:1756_IF8:I:0" }

/-- Witness for C1: the theorem applied at the AS611 scenario of the test
suite. -/
theorem c1_rack_level_third_step_witness :
    ∃ r, specCascadeStrategies.findSome? (fun s => s c1wDev [c1wTag]) = some r ∧
      rackLevelTagExistence c1wDev [c1wTag] = some r ∧
      r.classification = Classification.rackOnly ∧
      r.confidence = Confidence.partialConf ∧
      r.strategy_id = 3 ∧ r.io_device = some c1wDev :=
  c1_rack_level_third_step c1wDev [c1wTag] "Rack0:I" c1wTag rfl (by rfl) (by rfl)
    (List.mem_singleton.mpr rfl) rfl (by rfl)

/-! ### Helper lemmas about the enrichment pass -/

/-- `getD` after `set`: changed exactly at an in-range hit. -/
theorem getD_set (l : List PLCTag) (i j : Nat) (a d : PLCTag) :
    (l.set i a).getD j d = if i = j ∧ j < l.length then a else l.getD j d := by
  induction l generalizing i j with
  | nil => simp [List.set]
  | cons x xs ih =>
    cases i with
    | zero =>
      cases j with
      | zero => simp
      | succ j => simp
    | succ i =>
      cases j with
      | zero => simp [Nat.succ_ne_zero i]
      | succ j =>
        simp only [List.set, List.getD_cons_succ, ih i j, List.length_cons]
        by_cases hij : i = j
        · subst hij
          by_cases hlt : i < xs.length
          · rw [if_pos ⟨rfl, hlt⟩, if_pos ⟨rfl, by omega⟩]
          · rw [if_neg (by omega), if_neg (by omega)]
        · rw [if_neg (by omega), if_neg (by omega)]

/-- `getD` of an append, inside the left part. -/
theorem getD_append_left (l l2 : List PLCTag) (j : Nat) (d : PLCTag)
    (hj : j < l.length) : (l ++ l2).getD j d = l.getD j d := by
  induction l generalizing j with
  | nil => simp at hj
  | cons x xs ih =>
    cases j with
    | zero => rfl
    | succ j =>
      simp only [List.cons_append, List.getD_cons_succ]
      exact ih j (by simpa using hj)

/-- How one enrichment step may change one PLCTag object: not at all, or
by filling an empty description with a non-empty one. -/
def tagCellRel (t t2 : PLCTag) : Prop :=
  t2 = t ∨ (t.description = "" ∧ ∃ d, d ≠ "" ∧ t2 = { t with description := d })

/-- `tagCellRel` is reflexive. -/
theorem tagCellRel_refl (t : PLCTag) : tagCellRel t t := Or.inl rfl

/-- `tagCellRel` composes: a description can be filled at most once. -/
theorem tagCellRel_trans (a b c : PLCTag) (h1 : tagCellRel a b)
    (h2 : tagCellRel b c) : tagCellRel a c := by
  rcases h1 with rfl | ⟨ha, d, hd, rfl⟩
  · exact h2
  · rcases h2 with rfl | ⟨hb, d2, hd2, rfl⟩
    · exact Or.inr ⟨ha, d, hd, rfl⟩
    · exact absurd hb hd

/-- The PLC-tag side leaves the heap length unchanged and touches cells
only by filling an empty description. -/
theorem stepTag_heap (e : L5XEnrichment) (h : List PLCTag) (r : MatchResultRef) :
    (stepTag e h r).1.length = h.length ∧
    ∀ j, tagCellRel (heapTag h j) (heapTag (stepTag e h r).1 j) := by
  unfold stepTag
  cases r.plc_tag with
  | none => exact ⟨rfl, fun j => tagCellRel_refl _⟩
  | some i =>
    dsimp only
    cases lookupName e (normalize_tag (heapTag h i).name) with
    | none => exact ⟨rfl, fun j => tagCellRel_refl _⟩
    | some al =>
      dsimp only
      by_cases hfill : (heapTag h i).description = "" ∧ al.description ≠ ""
      · rw [if_pos hfill]
        refine ⟨by simp, fun j => ?_⟩
        unfold heapTag
        rw [getD_set]
        split
        · next hij =>
          right
          refine ⟨?_, al.description, hfill.2, ?_⟩
          · rw [← hij.1]; exact hfill.1
          · rw [← hij.1]
        · exact tagCellRel_refl _
      · rw [if_neg hfill]
        exact ⟨rfl, fun j => tagCellRel_refl _⟩

/-- Fields of the result after `aliasUpgrade`: only the plc_tag reference
may change. -/
theorem aliasUpgrade_result (e : L5XEnrichment) (h : List PLCTag)
    (r : MatchResultRef) (dev : IODevice) :
    ((aliasUpgrade e h r dev).2.2.1).classification = r.classification ∧
    ((aliasUpgrade e h r dev).2.2.1).conflict_flag = r.conflict_flag ∧
    ((aliasUpgrade e h r dev).2.2.1).io_device = r.io_device ∧
    ((aliasUpgrade e h r dev).2.2.1).strategy_id = r.strategy_id ∧
    ((aliasUpgrade e h r dev).2.2.1).confidence = r.confidence ∧
    ((aliasUpgrade e h r dev).2.2.1).sources = r.sources ∧
    ((aliasUpgrade e h r dev).2.2.1).audit_trail = r.audit_trail := by
  unfold aliasUpgrade
  dsimp only
  repeat' split
  all_goals exact ⟨rfl, rfl, rfl, rfl, rfl, rfl, rfl⟩

/-- The heap after `aliasUpgrade`: unchanged, or a single freshly
constructed PLCTag appended. -/
theorem aliasUpgrade_heap (e : L5XEnrichment) (h : List PLCTag)
    (r : MatchResultRef) (dev : IODevice) :
    (aliasUpgrade e h r dev).2.1 = h ∨
      ∃ nt, (aliasUpgrade e h r dev).2.1 = h ++ [nt] := by
  unfold aliasUpgrade
  dsimp only
  repeat' split
  all_goals first
    | exact Or.inl rfl
    | exact Or.inr ⟨_, rfl⟩

/-- Fields of the result after a successful `stepDevice`: only the
plc_tag reference may change (through the alias upgrade). -/
theorem stepDevice_ok_fields (e : L5XEnrichment) (h : List PLCTag)
    (r : MatchResultRef) (p : List PLCTag × MatchResultRef × List String)
    (hok : stepDevice e h r = Except.ok p) :
    p.2.1.classification = r.classification ∧
    p.2.1.conflict_flag = r.conflict_flag ∧
    p.2.1.io_device = r.io_device ∧
    p.2.1.strategy_id = r.strategy_id ∧
    p.2.1.confidence = r.confidence ∧
    p.2.1.sources = r.sources ∧
    p.2.1.audit_trail = r.audit_trail := by
  unfold stepDevice at hok
  dsimp only at hok
  repeat' split at hok
  all_goals first
    | exact Except.noConfusion hok
    | (injection hok with hp; subst hp;
       exact ⟨rfl, rfl, rfl, rfl, rfl, rfl, rfl⟩)
    | (injection hok with hp; subst hp;
       exact aliasUpgrade_result e h r _)

/-- The heap after a successful `stepDevice`: unchanged or one new cell. -/
theorem stepDevice_ok_heap (e : L5XEnrichment) (h : List PLCTag)
    (r : MatchResultRef) (p : List PLCTag × MatchResultRef × List String)
    (hok : stepDevice e h r = Except.ok p) :
    p.1 = h ∨ ∃ nt, p.1 = h ++ [nt] := by
  unfold stepDevice at hok
  dsimp only at hok
  repeat' split at hok
  all_goals first
    | exact Except.noConfusion hok
    | (injection hok with hp; subst hp; exact Or.inl rfl)
    | (injection hok with hp; subst hp; exact aliasUpgrade_heap e h r _)

/-- With an empty logic-reference set `stepDevice` cannot raise. -/
theorem stepDevice_ok_of_refs_nil (e : L5XEnrichment) (h : List PLCTag)
    (r : MatchResultRef) (hrefs : e.rung_references = []) :
    ∃ p, stepDevice e h r = Except.ok p := by
  unfold stepDevice
  split
  · exact ⟨_, rfl⟩
  · split
    · exact ⟨_, rfl⟩
    · dsimp only
      split
      · next hcond => exact absurd hcond.2.2.1 (not_not_intro hrefs)
      · exact ⟨_, rfl⟩

/-- `stepSpare` never changes any field but classification, conflict
flag (and those only on Spare results). -/
theorem stepSpare_fields (e : L5XEnrichment) (r : MatchResultRef) :
    (stepSpare e r).1.io_device = r.io_device ∧
    (stepSpare e r).1.plc_tag = r.plc_tag ∧
    (stepSpare e r).1.strategy_id = r.strategy_id ∧
    (stepSpare e r).1.confidence = r.confidence ∧
    (stepSpare e r).1.sources = r.sources ∧
    (stepSpare e r).1.audit_trail = r.audit_trail := by
  unfold stepSpare
  dsimp only
  repeat' split
  all_goals exact ⟨rfl, rfl, rfl, rfl, rfl, rfl⟩

/-- A non-Spare result passes `stepSpare` untouched. -/
theorem stepSpare_eq_of_not_spare (e : L5XEnrichment) (r : MatchResultRef)
    (hns : r.classification ≠ Classification.spare) :
    stepSpare e r = (r, []) := by
  unfold stepSpare
  split
  · rfl
  · dsimp only
    split
    · next hcond => exact absurd hcond.1 hns
    · rfl

/-- With an empty logic-reference set `stepSpare` is the identity. -/
theorem stepSpare_eq_of_refs_nil (e : L5XEnrichment) (r : MatchResultRef)
    (hrefs : e.rung_references = []) :
    stepSpare e r = (r, []) := by
  unfold stepSpare
  split
  · rfl
  · dsimp only
    split
    · next hcond => exact absurd hcond.2.2 (not_not_intro hrefs)
    · rfl

/-- `applyConfs` changes nothing but sources (extended) and the audit
trail (extended). -/
theorem applyConfs_fields (r : MatchResultRef) (confs : List String) :
    (applyConfs r confs).classification = r.classification ∧
    (applyConfs r confs).conflict_flag = r.conflict_flag ∧
    (applyConfs r confs).io_device = r.io_device ∧
    (applyConfs r confs).plc_tag = r.plc_tag ∧
    (applyConfs r confs).strategy_id = r.strategy_id ∧
    (applyConfs r confs).confidence = r.confidence ∧
    (∃ s, (applyConfs r confs).sources = r.sources ++ s) ∧
    (∃ a, (applyConfs r confs).audit_trail = r.audit_trail ++ a) := by
  unfold applyConfs
  dsimp only
  repeat' split
  all_goals refine ⟨rfl, rfl, rfl, rfl, rfl, rfl, ?_, ?_⟩
  all_goals first
    | exact ⟨_, rfl⟩
    | exact ⟨[], (List.append_nil _).symm⟩

/-- Fields of the result after one successful `enrich_results`
iteration: io_device, strategy id and confidence are preserved, sources
and audit trail only grow, and a non-Spare result keeps its
classification and conflict flag. -/
theorem enrichOne_ok_fields (e : L5XEnrichment) (h : List PLCTag)
    (r : MatchResultRef) (p : List PLCTag × MatchResultRef)
    (hok : enrichOne e h r = Except.ok p) :
    (r.classification ≠ Classification.spare →
      p.2.classification = r.classification ∧
      p.2.conflict_flag = r.conflict_flag) ∧
    p.2.io_device = r.io_device ∧
    p.2.strategy_id = r.strategy_id ∧
    p.2.confidence = r.confidence ∧
    (∃ s, p.2.sources = r.sources ++ s) ∧
    (∃ a, p.2.audit_trail = r.audit_trail ++ a) := by
  unfold enrichOne at hok
  dsimp only at hok
  split at hok
  · exact Except.noConfusion hok
  · next p' heq =>
    injection hok with hp
    subst hp
    obtain ⟨hd1, hd2, hd3, hd4, hd5, hd6, hd7⟩ :=
      stepDevice_ok_fields e (stepTag e h r).1 r p' heq
    obtain ⟨hs1, hs2, hs3, hs4, hs5, hs6⟩ := stepSpare_fields e p'.2.1
    obtain ⟨ha1, ha2, ha3, ha4, ha5, ha6, ha7, ha8⟩ :=
      applyConfs_fields (stepSpare e p'.2.1).1
        ((stepTag e h r).2 ++ p'.2.2 ++ (stepSpare e p'.2.1).2)
    refine ⟨?_, ?_, ?_, ?_, ?_, ?_⟩
    · intro hns
      have hsp : stepSpare e p'.2.1 = (p'.2.1, []) :=
        stepSpare_eq_of_not_spare e p'.2.1 (by rw [hd1]; exact hns)
      rw [ha1, ha2, hsp]
      exact ⟨hd1, hd2⟩
    · rw [ha3, hs1, hd3]
    · rw [ha5, hs3, hd4]
    · rw [ha6, hs4, hd5]
    · obtain ⟨s, hs⟩ := ha7
      exact ⟨s, by rw [hs, hs5, hd6]⟩
    · obtain ⟨a, ha⟩ := ha8
      exact ⟨a, by rw [ha, hs6, hd7]⟩

/-- With an empty logic-reference set one iteration succeeds and keeps
classification and conflict flag of every result. -/
theorem enrichOne_ok_of_refs_nil (e : L5XEnrichment) (h : List PLCTag)
    (r : MatchResultRef) (hrefs : e.rung_references = []) :
    ∃ p, enrichOne e h r = Except.ok p ∧
      p.2.classification = r.classification ∧
      p.2.conflict_flag = r.conflict_flag := by
  obtain ⟨p', hp'⟩ := stepDevice_ok_of_refs_nil e (stepTag e h r).1 r hrefs
  obtain ⟨hd1, hd2, _, _, _, _, _⟩ := stepDevice_ok_fields e (stepTag e h r).1 r p' hp'
  have hsp : stepSpare e p'.2.1 = (p'.2.1, []) := stepSpare_eq_of_refs_nil e p'.2.1 hrefs
  obtain ⟨ha1, ha2, _, _, _, _, _, _⟩ :=
    applyConfs_fields (stepSpare e p'.2.1).1
      ((stepTag e h r).2 ++ p'.2.2 ++ (stepSpare e p'.2.1).2)
  refine ⟨(p'.1, applyConfs (stepSpare e p'.2.1).1
      ((stepTag e h r).2 ++ p'.2.2 ++ (stepSpare e p'.2.1).2)), ?_, ?_, ?_⟩
  · unfold enrichOne
    dsimp only
    rw [hp']
  · dsimp only
    rw [ha1, hsp]
    exact hd1
  · dsimp only
    rw [ha2, hsp]
    exact hd2

/-- The heap after one successful iteration: it only grows, and existing
cells change only by a description fill. -/
theorem enrichOne_ok_heap (e : L5XEnrichment) (h : List PLCTag)
    (r : MatchResultRef) (p : List PLCTag × MatchResultRef)
    (hok : enrichOne e h r = Except.ok p) :
    h.length ≤ p.1.length ∧
    ∀ j, j < h.length → tagCellRel (heapTag h j) (heapTag p.1 j) := by
  unfold enrichOne at hok
  dsimp only at hok
  split at hok
  · exact Except.noConfusion hok
  · next p' heq =>
    injection hok with hp
    subst hp
    obtain ⟨hlen, hcell⟩ := stepTag_heap e h r
    rcases stepDevice_ok_heap e (stepTag e h r).1 r p' heq with hsame | ⟨nt, happ⟩
    · refine ⟨?_, fun j hj => ?_⟩
      · dsimp only
        rw [hsame, hlen]
      · dsimp only
        rw [hsame]
        exact hcell j
    · refine ⟨?_, fun j hj => ?_⟩
      · dsimp only
        rw [happ]
        simp [hlen]
      · dsimp only
        rw [happ]
        unfold heapTag
        rw [getD_append_left _ _ j _ (by rw [hlen]; exact hj)]
        exact hcell j

/-- The structure of a successful `enrich_results` run: same length, each
result enriched independently, the heap only growing with existing cells
at most description-filled. -/
theorem enrich_results_ok_structure (e : L5XEnrichment) :
    ∀ (rs : List MatchResultRef) (h : List PLCTag)
      (rs1 : List MatchResultRef) (h1 : List PLCTag),
      enrich_results e rs h = Except.ok (rs1, h1) →
      rs1.length = rs.length ∧
      (h.length ≤ h1.length ∧
        ∀ j, j < h.length → tagCellRel (heapTag h j) (heapTag h1 j)) ∧
      ∀ i, ((rs.getD i emptyResultRef).classification ≠ Classification.spare →
          (rs1.getD i emptyResultRef).classification =
            (rs.getD i emptyResultRef).classification ∧
          (rs1.getD i emptyResultRef).conflict_flag =
            (rs.getD i emptyResultRef).conflict_flag) ∧
        (rs1.getD i emptyResultRef).io_device = (rs.getD i emptyResultRef).io_device ∧
        (rs1.getD i emptyResultRef).strategy_id = (rs.getD i emptyResultRef).strategy_id ∧
        (rs1.getD i emptyResultRef).confidence = (rs.getD i emptyResultRef).confidence ∧
        (∃ s, (rs1.getD i emptyResultRef).sources =
          (rs.getD i emptyResultRef).sources ++ s) ∧
        (∃ a, (rs1.getD i emptyResultRef).audit_trail =
          (rs.getD i emptyResultRef).audit_trail ++ a) := by
  intro rs
  induction rs with
  | nil =>
    intro h rs1 h1 hok
    unfold enrich_results at hok
    injection hok with hp
    injection hp with hrs hh
    subst hrs
    subst hh
    refine ⟨rfl, ⟨Nat.le_refl _, fun j _ => tagCellRel_refl _⟩, fun i => ?_⟩
    exact ⟨fun _ => ⟨rfl, rfl⟩, rfl, rfl, rfl, ⟨[], by simp⟩, ⟨[], by simp⟩⟩
  | cons r rest ih =>
    intro h rs1 h1 hok
    unfold enrich_results at hok
    split at hok
    · exact Except.noConfusion hok
    · next p hone =>
      split at hok
      · exact Except.noConfusion hok
      · next q hrest =>
        injection hok with hp
        injection hp with hrs hh
        subst hrs
        subst hh
        obtain ⟨hlen, hheap, hfields⟩ := ih p.1 q.1 q.2 hrest
        obtain ⟨hohlen, hohcell⟩ := enrichOne_ok_heap e h r p hone
        obtain ⟨hc, hio, hsid, hconf, hsrc, haud⟩ := enrichOne_ok_fields e h r p hone
        refine ⟨by simp [hlen], ⟨Nat.le_trans hohlen hheap.1, fun j hj => ?_⟩, fun i => ?_⟩
        · exact tagCellRel_trans _ _ _ (hohcell j hj)
            (hheap.2 j (Nat.lt_of_lt_of_le hj hohlen))
        · cases i with
          | zero =>
            simp only [List.getD_cons_zero]
            exact ⟨hc, hio, hsid, hconf, hsrc, haud⟩
          | succ i =>
            simp only [List.getD_cons_succ]
            exact hfields i

/-- With an empty logic-reference set the whole pass succeeds and keeps
every result's classification and conflict flag. -/
theorem enrich_results_refs_nil (e : L5XEnrichment)
    (hrefs : e.rung_references = []) :
    ∀ (rs : List MatchResultRef) (h : List PLCTag),
      ∃ rs1 h1, enrich_results e rs h = Except.ok (rs1, h1) ∧
        rs1.length = rs.length ∧
        ∀ i, (rs1.getD i emptyResultRef).classification =
            (rs.getD i emptyResultRef).classification ∧
          (rs1.getD i emptyResultRef).conflict_flag =
            (rs.getD i emptyResultRef).conflict_flag := by
  intro rs
  induction rs with
  | nil => exact fun h => ⟨[], h, rfl, rfl, fun i => ⟨rfl, rfl⟩⟩
  | cons r rest ih =>
    intro h
    obtain ⟨p, hone, hc, hf⟩ := enrichOne_ok_of_refs_nil e h r hrefs
    obtain ⟨rs1, h1, hrest, hlen, hpres⟩ := ih p.1
    refine ⟨p.2 :: rs1, h1, ?_, by simp [hlen], fun i => ?_⟩
    · simp only [enrich_results, hone, hrest]
    · cases i with
      | zero => simpa using ⟨hc, hf⟩
      | succ i => simpa using hpres i

/-! ### Claim C6 — skip on empty logic-reference set -/

/-- C6: when the logic-reference set handed to enrichment is empty, the
unused-point reclassification (and the spare check) are skipped entirely:
the pass succeeds and every result — in particular one with a
Modern-format address and no alias — keeps its prior classification and
its conflict flag. -/
theorem c6_skip_on_empty_logic_refs (e : L5XEnrichment)
    (rs : List MatchResultRef) (h : List PLCTag) (i : Nat)
    (hrefs : e.rung_references = []) :
    ∃ rs1 h1, enrich_results e rs h = Except.ok (rs1, h1) ∧
      rs1.length = rs.length ∧
      (rs1.getD i emptyResultRef).classification =
        (rs.getD i emptyResultRef).classification ∧
      (rs1.getD i emptyResultRef).conflict_flag =
        (rs.getD i emptyResultRef).conflict_flag := by
  obtain ⟨rs1, h1, hok, hlen, hpres⟩ := enrich_results_refs_nil e hrefs rs h
  exact ⟨rs1, h1, hok, hlen, (hpres i).1, (hpres i).2⟩

/-- The result of C6's witness: a RackOnly point with a Modern address,
no alias and conflict_flag false. -/
def c6wResult : MatchResultRef :=
  { io_device := some { device_tag := "TSV246", plc_address := "Rack26:12:O.Data.8" }
    classification := Classification.rackOnly
    sources := ["CSV"] }

/-- Witness for C6: the theorem applied to a RackOnly result with empty
logic references — it stays RackOnly with the flag down. -/
theorem c6_skip_on_empty_logic_refs_witness :
    ∃ rs1 h1,
      enrich_results { rung_references := [] } [c6wResult] [] = Except.ok (rs1, h1) ∧
      rs1.length = [c6wResult].length ∧
      (rs1.getD 0 emptyResultRef).classification =
        ([c6wResult].getD 0 emptyResultRef).classification ∧
      (rs1.getD 0 emptyResultRef).conflict_flag =
        ([c6wResult].getD 0 emptyResultRef).conflict_flag :=
  c6_skip_on_empty_logic_refs { rung_references := [] } [c6wResult] [] 0 rfl

/-! ### Claim C3 — enrichment invariance of other classifications -/

/-- The statement of claim C3, following the claim's words: every result
that is neither RackOnly nor Spare keeps its classification under
enrichment and gains at most sources entries, audit-trail entries and a
description — so in particular its conflict flag, io_device and its
plc_tag reference are all unchanged. -/
def c3ClaimStatement : Prop :=
  ∀ (e : L5XEnrichment) (rs : List MatchResultRef) (h : List PLCTag)
    (rs1 : List MatchResultRef) (h1 : List PLCTag),
    enrich_results e rs h = Except.ok (rs1, h1) →
    ∀ i, (rs.getD i emptyResultRef).classification ≠ Classification.rackOnly →
      (rs.getD i emptyResultRef).classification ≠ Classification.spare →
      (rs1.getD i emptyResultRef).classification =
        (rs.getD i emptyResultRef).classification ∧
      (rs1.getD i emptyResultRef).conflict_flag =
        (rs.getD i emptyResultRef).conflict_flag ∧
      (rs1.getD i emptyResultRef).io_device = (rs.getD i emptyResultRef).io_device ∧
      (rs1.getD i emptyResultRef).plc_tag = (rs.getD i emptyResultRef).plc_tag ∧
      (∃ s, (rs1.getD i emptyResultRef).sources =
        (rs.getD i emptyResultRef).sources ++ s) ∧
      (∃ a, (rs1.getD i emptyResultRef).audit_trail =
        (rs.getD i emptyResultRef).audit_trail ++ a)

/-- The IO device of the C3 counterexample. -/
def c3Device : IODevice :=
  { device_tag := "LT611", plc_address := "Rack0_Group0_Slot0_IO.READ[4]" }

/-- The Both-classified result of the C3 counterexample, holding a
rack-level PLC tag reference. -/
def c3Result : MatchResultRef :=
  { io_device := some c3Device
    plc_tag := some 0
    classification := Classification.both
    sources := ["CSV"] }

/-- The heap of the C3 counterexample: the rack-level tag the result
references. -/
def c3Heap : List PLCTag :=
  [{ record_type := RecordType.comment, name := "Rack0_Group0_Slot0_IO" }]

/-- The enrichment data of the C3 counterexample: one physical-IO alias
at the device's address. -/
def c3Enrichment : L5XEnrichment :=
  { alias_by_address :=
      [("rack0_group0_slot0_io.read[4]",
        [{ name := "LT_611", alias_for := "Rack0_Group0_Slot0_IO.READ[4]",
           description := "Level Transmitter" }])] }

/-- Counterexample to C3: on a Both-classified result whose PLC tag is a
bare rack-level name with exactly one alias at the device address, the
enrichment pass replaces the plc_tag reference by a newly constructed
alias tag — the result changes beyond sources, audit entries and a
description, so C3 as stated is false. -/
theorem c3_counterexample : ¬ c3ClaimStatement := by
  intro hcl
  have h := hcl c3Enrichment [c3Result] c3Heap _ _ rfl 0 (by decide) (by decide)
  exact absurd h.2.2.2.1 (by decide)

/-- C3 amended: whenever the pass completes, a result that is neither
RackOnly nor Spare keeps its classification, conflict flag, io_device,
strategy id and confidence, and its sources and audit trail only grow —
but its PLCTag may additionally be replaced by a newly constructed alias
tag (the rack-level upgrade), and the referenced tag may gain a
description. -/
theorem c3_amended_enrichment_invariance (e : L5XEnrichment)
    (rs : List MatchResultRef) (h : List PLCTag)
    (rs1 : List MatchResultRef) (h1 : List PLCTag) (i : Nat)
    (hok : enrich_results e rs h = Except.ok (rs1, h1))
    (hno : (rs.getD i emptyResultRef).classification ≠ Classification.rackOnly)
    (hns : (rs.getD i emptyResultRef).classification ≠ Classification.spare) :
    rs1.length = rs.length ∧
    (rs1.getD i emptyResultRef).classification =
      (rs.getD i emptyResultRef).classification ∧
    (rs1.getD i emptyResultRef).conflict_flag =
      (rs.getD i emptyResultRef).conflict_flag ∧
    (rs1.getD i emptyResultRef).io_device = (rs.getD i emptyResultRef).io_device ∧
    (rs1.getD i emptyResultRef).strategy_id = (rs.getD i emptyResultRef).strategy_id ∧
    (rs1.getD i emptyResultRef).confidence = (rs.getD i emptyResultRef).confidence ∧
    (∃ s, (rs1.getD i emptyResultRef).sources =
      (rs.getD i emptyResultRef).sources ++ s) ∧
    (∃ a, (rs1.getD i emptyResultRef).audit_trail =
      (rs.getD i emptyResultRef).audit_trail ++ a) := by
  obtain ⟨hlen, _, hfields⟩ := enrich_results_ok_structure e rs h rs1 h1 hok
  obtain ⟨hc, hio, hsid, hconf, hsrc, haud⟩ := hfields i
  exact ⟨hlen, (hc hns).1, (hc hns).2, hio, hsid, hconf, hsrc, haud⟩

/-- Witness for C3's amended theorem: applied at the counterexample
input, where the Both-classified result indeed keeps classification and
flag while its tag reference was upgraded. -/
theorem c3_amended_enrichment_invariance_witness :
    ∃ rs1 h1, enrich_results c3Enrichment [c3Result] c3Heap = Except.ok (rs1, h1) ∧
      rs1.length = [c3Result].length ∧
      (rs1.getD 0 emptyResultRef).classification =
        ([c3Result].getD 0 emptyResultRef).classification ∧
      (rs1.getD 0 emptyResultRef).conflict_flag =
        ([c3Result].getD 0 emptyResultRef).conflict_flag := by
  refine ⟨_, _, rfl, ?_⟩
  have h := c3_amended_enrichment_invariance c3Enrichment [c3Result] c3Heap _ _ 0
    rfl (by decide) (by decide)
  exact ⟨h.1, h.2.1, h.2.2.1⟩

/-! ### Claim C7 — enrichment and shared PLCTag instances -/

/-- The statement of claim C7, following the claim's words: the
enrichment pass never mutates a PLCTag instance reachable from another
MatchResult — every change constructs a new PLCTag — so no existing heap
cell (a PLCTag object that any other result may reference) is ever
modified. -/
def c7ClaimStatement : Prop :=
  ∀ (e : L5XEnrichment) (rs : List MatchResultRef) (h : List PLCTag)
    (rs1 : List MatchResultRef) (h1 : List PLCTag),
    enrich_results e rs h = Except.ok (rs1, h1) →
    ∀ j, j < h.length → heapTag h1 j = heapTag h j

/-- The alias of the C7 counterexample (indexed under the normalized,
suffix-stripped name an601). -/
def c7Alias : AliasEntry :=
  { name := "AN601_EV", alias_for := "Rack14:O.Data[3].2",
    description := "Tank 601 Valve" }

/-- The enrichment data of the C7 counterexample. -/
def c7Enrichment : L5XEnrichment := { alias_by_name := [("an601", c7Alias)] }

/-- The PLCTag instance shared by both results of the C7 counterexample;
its description is empty. -/
def c7SharedTag : PLCTag :=
  { record_type := RecordType.comment, name := "AN601_EV",
    specifier := "Rack14:O.Data[3].2", description := "" }

/-- First of the two results sharing the tag instance. -/
def c7ResultA : MatchResultRef :=
  { plc_tag := some 0, classification := Classification.both, sources := ["CSV"] }

/-- Second of the two results sharing the tag instance. -/
def c7ResultB : MatchResultRef :=
  { plc_tag := some 0, classification := Classification.both, sources := ["CSV"] }

/-- Counterexample to C7: two MatchResults reference the same PLCTag
instance (heap cell 0); the description fill-in of the tag-name
confirmation mutates that instance in place, so after enrichment the tag
observed through the other result has changed. -/
theorem c7_counterexample : ¬ c7ClaimStatement := by
  intro hcl
  have h := hcl c7Enrichment [c7ResultA, c7ResultB] [c7SharedTag] _ _ rfl 0 (by decide)
  exact absurd h (by decide)

/-- C7 amended: the rack-level name replacement does construct a new
PLCTag (the heap only grows), but the description fill-in mutates the
referenced PLCTag in place; an existing PLCTag instance is therefore
either left unchanged or has exactly its empty description filled with a
non-empty one — a change observable through every other MatchResult that
references the same instance. -/
theorem c7_amended_mutation_bound (e : L5XEnrichment)
    (rs : List MatchResultRef) (h : List PLCTag)
    (rs1 : List MatchResultRef) (h1 : List PLCTag) (j : Nat)
    (hok : enrich_results e rs h = Except.ok (rs1, h1))
    (hj : j < h.length) :
    h.length ≤ h1.length ∧
    (heapTag h1 j = heapTag h j ∨
      ((heapTag h j).description = "" ∧ ∃ d, d ≠ "" ∧
        heapTag h1 j = { heapTag h j with description := d })) := by
  obtain ⟨_, hheap, _⟩ := enrich_results_ok_structure e rs h rs1 h1 hok
  exact ⟨hheap.1, hheap.2 j hj⟩

/-- Witness for C7's amended theorem at the shared-instance input: cell 0
was indeed description-filled. -/
theorem c7_amended_mutation_bound_witness :
    ∃ rs1 h1,
      enrich_results c7Enrichment [c7ResultA, c7ResultB] [c7SharedTag] =
        Except.ok (rs1, h1) ∧
      ([c7SharedTag] : List PLCTag).length ≤ h1.length ∧
      (heapTag h1 0 = heapTag [c7SharedTag] 0 ∨
        ((heapTag [c7SharedTag] 0).description = "" ∧ ∃ d, d ≠ "" ∧
          heapTag h1 0 = { heapTag [c7SharedTag] 0 with description := d })) := by
  refine ⟨_, _, rfl, ?_⟩
  exact c7_amended_mutation_bound c7Enrichment [c7ResultA, c7ResultB] [c7SharedTag]
    _ _ 0 rfl (by decide)
